import Mathlib

/-!
Verification of the KrishiNiti market-price analytics and sell-advisory engine
(backend/app/services/apmc_service.py).

The Python service is shallowly embedded here.  Numeric values (Python floats)
are modelled as elements of a linear ordered field `α` with a floor structure
(instantiated with `ℚ` for executable checks and with `ℝ` where a claim is
about the true haversine distance or the true square root).  Python's
`round(x, n)` is modelled by decimal rounding to `n` places, `math.sqrt` and
the trigonometric haversine primitive are passed as explicit parameters where
the embedded code calls them, and the database query layer is modelled as
explicit filtering, deduplication and stable sorting over a list of rows,
mirroring the SQL produced by the service.
-/

set_option linter.unusedSectionVars false

namespace KrishiNiti

variable {α : Type} [LinearOrderedField α] [FloorRing α]

/-- Python `round(x, 2)`: decimal rounding to two places. -/
def round2 (x : α) : α := ((round (x * 100) : ℤ) : α) / 100

/-- Python `round(x, 1)`: decimal rounding to one place. -/
def round1 (x : α) : α := ((round (x * 10) : ℤ) : α) / 10

theorem round2_intMul (k : ℤ) (x : α) (h : x * 100 = (k : α)) : round2 x = x := by
  rw [round2, h, round_intCast]
  field_simp at h ⊢
  linarith [h]

theorem round_monotone {x y : α} (h : x ≤ y) : round x ≤ round y := by
  rw [round_eq, round_eq]
  exact Int.floor_mono (by linarith)

theorem round2_mono {x y : α} (h : x ≤ y) : round2 x ≤ round2 y := by
  have : round (x * 100) ≤ round (y * 100) := round_monotone (by nlinarith)
  rw [round2, round2]
  have hc : ((round (x * 100) : ℤ) : α) ≤ ((round (y * 100) : ℤ) : α) := by
    exact_mod_cast this
  linarith

theorem round2_zero : (round2 (0 : α)) = 0 := by
  simp [round2]

theorem round2_nonneg {x : α} (h : 0 ≤ x) : 0 ≤ round2 x := by
  have := round2_mono (α := α) h
  rwa [round2_zero] at this

/-- `x` differs from its one-decimal rounding by at most `1/20`. -/
theorem le_round1_add (x : α) : x ≤ round1 x + 1 / 20 := by
  have h := abs_sub_round (x * 10)
  rw [abs_sub_le_iff] at h
  have h1 := h.1
  rw [round1]
  have : x * 10 - ((round (x * 10) : ℤ) : α) ≤ 1 / 2 := h1
  linarith

/- ----------------------------------------------------------------------
Stable sorting (Python `list.sort(key=..., reverse=...)` is a stable sort).
`sortDescBy` models `sort(key=key, reverse=True)`; `sortAscBy` models
`sort(key=key)` / SQL `ORDER BY key ASC` on the embedded row lists.
---------------------------------------------------------------------- -/

/-- Insert `a` in front of the first element whose key is `≤ key a`
(descending stable insertion). -/
def insertDescBy {β γ : Type} [LinearOrder γ] (key : β → γ) (a : β) :
    List β → List β
  | [] => [a]
  | b :: l => if key b ≤ key a then a :: b :: l else b :: insertDescBy key a l

/-- Stable descending insertion sort by key. -/
def sortDescBy {β γ : Type} [LinearOrder γ] (key : β → γ) : List β → List β
  | [] => []
  | a :: l => insertDescBy key a (sortDescBy key l)

/-- Insert `a` in front of the first element whose key is `≥ key a`
(ascending stable insertion). -/
def insertAscBy {β γ : Type} [LinearOrder γ] (key : β → γ) (a : β) :
    List β → List β
  | [] => [a]
  | b :: l => if key a ≤ key b then a :: b :: l else b :: insertAscBy key a l

/-- Stable ascending insertion sort by key. -/
def sortAscBy {β γ : Type} [LinearOrder γ] (key : β → γ) : List β → List β
  | [] => []
  | a :: l => insertAscBy key a (sortAscBy key l)

theorem insertDescBy_perm {β γ : Type} [LinearOrder γ] (key : β → γ) (a : β)
    (l : List β) : List.Perm (insertDescBy key a l) (a :: l) := by
  induction l with
  | nil => simp [insertDescBy]
  | cons b t ih =>
    rw [insertDescBy]
    split
    · exact List.Perm.refl _
    · exact ((ih.cons b).trans (List.Perm.swap a b t))

theorem sortDescBy_perm {β γ : Type} [LinearOrder γ] (key : β → γ)
    (l : List β) : List.Perm (sortDescBy key l) l := by
  induction l with
  | nil => simp [sortDescBy]
  | cons a t ih =>
    rw [sortDescBy]
    exact (insertDescBy_perm key a _).trans (ih.cons a)

theorem insertAscBy_perm {β γ : Type} [LinearOrder γ] (key : β → γ) (a : β)
    (l : List β) : List.Perm (insertAscBy key a l) (a :: l) := by
  induction l with
  | nil => simp [insertAscBy]
  | cons b t ih =>
    rw [insertAscBy]
    split
    · exact List.Perm.refl _
    · exact ((ih.cons b).trans (List.Perm.swap a b t))

theorem sortAscBy_perm {β γ : Type} [LinearOrder γ] (key : β → γ)
    (l : List β) : List.Perm (sortAscBy key l) l := by
  induction l with
  | nil => simp [sortAscBy]
  | cons a t ih =>
    rw [sortAscBy]
    exact (insertAscBy_perm key a _).trans (ih.cons a)

theorem insertDescBy_pairwise {β γ : Type} [LinearOrder γ] (key : β → γ)
    (a : β) (l : List β)
    (h : l.Pairwise (fun x y => key y ≤ key x)) :
    (insertDescBy key a l).Pairwise (fun x y => key y ≤ key x) := by
  induction l with
  | nil => simp [insertDescBy]
  | cons b t ih =>
    rw [insertDescBy]
    rcases List.pairwise_cons.1 h with ⟨hb, ht⟩
    split
    · rename_i hba
      refine List.pairwise_cons.2 ⟨?_, h⟩
      intro x hx
      rcases List.mem_cons.1 hx with hxb | hxt
      · subst hxb; exact hba
      · exact le_trans (hb x hxt) hba
    · rename_i hba
      push_neg at hba
      refine List.pairwise_cons.2 ⟨?_, ih ht⟩
      intro x hx
      have hmem := (insertDescBy_perm key a t).mem_iff.1 hx
      rcases List.mem_cons.1 hmem with hxa | hxt
      · subst hxa; exact le_of_lt hba
      · exact hb x hxt

theorem sortDescBy_pairwise {β γ : Type} [LinearOrder γ] (key : β → γ)
    (l : List β) :
    (sortDescBy key l).Pairwise (fun x y => key y ≤ key x) := by
  induction l with
  | nil => simp [sortDescBy]
  | cons a t ih => exact insertDescBy_pairwise key a _ ih

theorem insertAscBy_pairwise {β γ : Type} [LinearOrder γ] (key : β → γ)
    (a : β) (l : List β)
    (h : l.Pairwise (fun x y => key x ≤ key y)) :
    (insertAscBy key a l).Pairwise (fun x y => key x ≤ key y) := by
  induction l with
  | nil => simp [insertAscBy]
  | cons b t ih =>
    rw [insertAscBy]
    rcases List.pairwise_cons.1 h with ⟨hb, ht⟩
    split
    · rename_i hab
      refine List.pairwise_cons.2 ⟨?_, h⟩
      intro x hx
      rcases List.mem_cons.1 hx with hxb | hxt
      · subst hxb; exact hab
      · exact le_trans hab (hb x hxt)
    · rename_i hab
      push_neg at hab
      refine List.pairwise_cons.2 ⟨?_, ih ht⟩
      intro x hx
      have hmem := (insertAscBy_perm key a t).mem_iff.1 hx
      rcases List.mem_cons.1 hmem with hxa | hxt
      · subst hxa; exact le_of_lt hab
      · exact hb x hxt

theorem sortAscBy_pairwise {β γ : Type} [LinearOrder γ] (key : β → γ)
    (l : List β) :
    (sortAscBy key l).Pairwise (fun x y => key x ≤ key y) := by
  induction l with
  | nil => simp [sortAscBy]
  | cons a t ih => exact insertAscBy_pairwise key a _ ih

/-- Stability of the descending sort: for every key value `c`, the sublist of
elements whose key equals `c` is unchanged by sorting (equal-key elements keep
their relative input order). -/
theorem insertDescBy_filter_key {β γ : Type} [LinearOrder γ] (key : β → γ)
    (a : β) (l : List β) (c : γ) :
    (insertDescBy key a l).filter (fun x => key x = c) =
      if key a = c then a :: l.filter (fun x => key x = c)
      else l.filter (fun x => key x = c) := by
  induction l with
  | nil =>
    simp only [insertDescBy, List.filter]
    split <;> simp_all
  | cons b t ih =>
    rw [insertDescBy]
    split
    · rename_i hba
      by_cases hac : key a = c
      · by_cases hbc : key b = c
        · simp [List.filter_cons, hac, hbc]
        · simp [List.filter_cons, hac, hbc]
      · simp [List.filter_cons, hac]
    · rename_i hba
      push_neg at hba
      by_cases hac : key a = c
      · have hbc : ¬ key b = c := by
          intro hbc
          rw [hbc, ← hac] at hba
          exact lt_irrefl _ hba
        simp [List.filter_cons, hbc, ih, hac]
      · by_cases hbc : key b = c
        · simp [List.filter_cons, hbc, ih, hac]
        · simp [List.filter_cons, hbc, ih, hac]

theorem sortDescBy_filter_key {β γ : Type} [LinearOrder γ] (key : β → γ)
    (l : List β) (c : γ) :
    (sortDescBy key l).filter (fun x => key x = c) =
      l.filter (fun x => key x = c) := by
  induction l with
  | nil => simp [sortDescBy]
  | cons a t ih =>
    rw [sortDescBy, insertDescBy_filter_key, ih]
    by_cases hac : key a = c
    · simp [List.filter_cons, hac]
    · simp [List.filter_cons, hac]

/- ----------------------------------------------------------------------
First-occurrence deduplication, modelling SQL `SELECT DISTINCT` in the scan
order of the filtered query (and Python dict key insertion order).
---------------------------------------------------------------------- -/

/-- Keep the first occurrence of each element, preserving order. -/
def dedupFirst {β : Type} [DecidableEq β] : List β → List β
  | [] => []
  | a :: l => a :: (dedupFirst l).filter (fun b => b ≠ a)

theorem dedupFirst_subset {β : Type} [DecidableEq β] (l : List β) :
    dedupFirst l ⊆ l := by
  induction l with
  | nil => simp [dedupFirst]
  | cons a t ih =>
    rw [dedupFirst]
    intro x hx
    rcases List.mem_cons.1 hx with hxa | hxt
    · subst hxa; exact List.mem_cons_self _ _
    · exact List.mem_cons_of_mem a (ih (List.mem_of_mem_filter hxt))

theorem dedupFirst_nodup {β : Type} [DecidableEq β] (l : List β) :
    (dedupFirst l).Nodup := by
  induction l with
  | nil => simp [dedupFirst]
  | cons a t ih =>
    rw [dedupFirst]
    refine List.nodup_cons.2 ⟨?_, ih.filter _⟩
    intro hmem
    have := List.of_mem_filter hmem
    simp at this

theorem mem_dedupFirst {β : Type} [DecidableEq β] (l : List β) (x : β) :
    x ∈ dedupFirst l ↔ x ∈ l := by
  induction l with
  | nil => simp [dedupFirst]
  | cons a t ih =>
    rw [dedupFirst]
    constructor
    · intro hx
      rcases List.mem_cons.1 hx with hxa | hxt
      · subst hxa; exact List.mem_cons_self _ _
      · exact List.mem_cons_of_mem a (ih.1 (List.mem_of_mem_filter hxt))
    · intro hx
      by_cases hxa : x = a
      · subst hxa; exact List.mem_cons_self _ _
      · rcases List.mem_cons.1 hx with h | h
        · exact absurd h hxa
        · exact List.mem_cons_of_mem a
            (List.mem_filter.2 ⟨ih.2 h, by simp [hxa]⟩)

/- ----------------------------------------------------------------------
Python `min(list)` / `max(list)` on non-empty lists.
---------------------------------------------------------------------- -/

/-- Python `min(values)` (defaults to `0` on the empty list, which the service
never passes). -/
def listMin : List α → α
  | [] => 0
  | a :: t => t.foldl min a

/-- Python `max(values)` (defaults to `0` on the empty list, which the service
never passes). -/
def listMax : List α → α
  | [] => 0
  | a :: t => t.foldl max a

theorem foldl_min_le_init (t : List α) (a : α) : t.foldl min a ≤ a := by
  induction t generalizing a with
  | nil => simp
  | cons b t ih =>
    simp only [List.foldl_cons]
    exact le_trans (ih (min a b)) (min_le_left a b)

theorem foldl_min_le_mem (t : List α) (a x : α) (hx : x ∈ t) :
    t.foldl min a ≤ x := by
  induction t generalizing a with
  | nil => simp at hx
  | cons b t ih =>
    simp only [List.foldl_cons]
    rcases List.mem_cons.1 hx with hxb | hxt
    · subst hxb
      exact le_trans (foldl_min_le_init t (min a x)) (min_le_right a x)
    · exact ih (min a b) hxt

theorem listMin_le {l : List α} {x : α} (hx : x ∈ l) : listMin l ≤ x := by
  cases l with
  | nil => simp at hx
  | cons a t =>
    rcases List.mem_cons.1 hx with hxa | hxt
    · subst hxa; exact foldl_min_le_init t x
    · exact foldl_min_le_mem t a x hxt

theorem le_foldl_max_init (t : List α) (a : α) : a ≤ t.foldl max a := by
  induction t generalizing a with
  | nil => simp
  | cons b t ih =>
    simp only [List.foldl_cons]
    exact le_trans (le_max_left a b) (ih (max a b))

theorem le_foldl_max_mem (t : List α) (a x : α) (hx : x ∈ t) :
    x ≤ t.foldl max a := by
  induction t generalizing a with
  | nil => simp at hx
  | cons b t ih =>
    simp only [List.foldl_cons]
    rcases List.mem_cons.1 hx with hxb | hxt
    · subst hxb
      exact le_trans (le_max_right a x) (le_foldl_max_init t (max a x))
    · exact ih (max a b) hxt

theorem le_listMax {l : List α} {x : α} (hx : x ∈ l) : x ≤ listMax l := by
  cases l with
  | nil => simp at hx
  | cons a t =>
    rcases List.mem_cons.1 hx with hxa | hxt
    · subst hxa; exact le_foldl_max_init t x
    · exact le_foldl_max_mem t a x hxt


/- ----------------------------------------------------------------------
Data model: one row of the `mandi_prices` table (`MandiPrice` in
app/models.py), with `arrival_date` modelled as a day number.
---------------------------------------------------------------------- -/

/-- A price observation row (model of `app.models.MandiPrice`). -/
structure MandiPrice (α : Type) where
  commodity : String
  mandi_name : String
  state : String
  district : String
  price_per_quintal : α
  min_price : α
  max_price : α
  modal_price : α
  arrival_date : Int
deriving DecidableEq, Repr

/-- Python `str.lower()` (modelled over the character list so that it is
kernel-reducible; the service only compares ASCII names). -/
def lowerStr (s : String) : String := String.mk (s.data.map Char.toLower)

/-- Python `str.strip()`. -/
def trimStr (s : String) : String :=
  String.mk
    (((s.data.dropWhile Char.isWhitespace).reverse.dropWhile
        Char.isWhitespace).reverse)

/-- `func.lower(MandiPrice.commodity) == commodity.lower()`. -/
def matchesCommodity (c : String) (r : MandiPrice α) : Bool :=
  lowerStr r.commodity == lowerStr c

/-- Optional state filter: `func.lower(MandiPrice.state) == state.lower()`. -/
def matchesState (s : Option String) (r : MandiPrice α) : Bool :=
  match s with
  | none => true
  | some st => lowerStr r.state == lowerStr st

/-- First element with maximal `arrival_date`, modelling
`query.order_by(MandiPrice.arrival_date.desc()).first()`. -/
def pickLatest (l : List (MandiPrice α)) : Option (MandiPrice α) :=
  l.foldl
    (fun acc r =>
      match acc with
      | none => some r
      | some b => if b.arrival_date < r.arrival_date then some r else some b)
    none

/-- The per-mandi latest observation used by `compare_prices` and
`find_best_apmc` (note: this inner query filters by commodity and mandi name
only, not by state, exactly as in the source). -/
def latestFor (db : List (MandiPrice α)) (c nm : String) :
    Option (MandiPrice α) :=
  pickLatest (db.filter (fun r => matchesCommodity c r && r.mandi_name == nm))

theorem pickLatest_aux (l : List (MandiPrice α)) (b : MandiPrice α) :
    ∃ r, l.foldl
        (fun acc r =>
          match acc with
          | none => some r
          | some b => if b.arrival_date < r.arrival_date then some r
                      else some b)
        (some b) = some r ∧ (r ∈ l ∨ r = b) ∧
      b.arrival_date ≤ r.arrival_date ∧
      ∀ x ∈ l, x.arrival_date ≤ r.arrival_date := by
  induction l generalizing b with
  | nil => exact ⟨b, rfl, Or.inr rfl, le_rfl, by simp⟩
  | cons a t ih =>
    simp only [List.foldl_cons]
    by_cases hab : b.arrival_date < a.arrival_date
    · rcases ih a with ⟨r, hr, hmem, hle, hall⟩
      refine ⟨r, ?_, ?_, ?_, ?_⟩
      · simpa [hab] using hr
      · rcases hmem with h | h
        · exact Or.inl (List.mem_cons_of_mem a h)
        · exact Or.inl (h ▸ List.mem_cons_self a t)
      · exact le_trans (le_of_lt hab) hle
      · intro x hx
        rcases List.mem_cons.1 hx with hxa | hxt
        · subst hxa; exact hle
        · exact hall x hxt
    · rcases ih b with ⟨r, hr, hmem, hle, hall⟩
      refine ⟨r, ?_, ?_, ?_, ?_⟩
      · simpa [hab] using hr
      · rcases hmem with h | h
        · exact Or.inl (List.mem_cons_of_mem a h)
        · exact Or.inr h
      · exact hle
      · intro x hx
        rcases List.mem_cons.1 hx with hxa | hxt
        · subst hxa
          exact le_trans (le_of_not_lt hab) hle
        · exact hall x hxt

theorem pickLatest_spec (l : List (MandiPrice α)) (hl : l ≠ []) :
    ∃ r, pickLatest l = some r ∧ r ∈ l ∧
      ∀ x ∈ l, x.arrival_date ≤ r.arrival_date := by
  cases l with
  | nil => exact absurd rfl hl
  | cons a t =>
    rw [pickLatest]
    simp only [List.foldl_cons]
    rcases pickLatest_aux t a with ⟨r, hr, hmem, hle, hall⟩
    refine ⟨r, hr, ?_, ?_⟩
    · rcases hmem with h | h
      · exact List.mem_cons_of_mem a h
      · exact h ▸ List.mem_cons_self a t
    · intro x hx
      rcases List.mem_cons.1 hx with hxa | hxt
      · subst hxa; exact hle
      · exact hall x hxt

theorem pickLatest_eq_none (l : List (MandiPrice α)) :
    pickLatest l = none ↔ l = [] := by
  constructor
  · intro h
    by_contra hne
    rcases pickLatest_spec l hne with ⟨r, hr, _, _⟩
    rw [h] at hr
    exact Option.noConfusion hr
  · intro h; subst h; rfl

/- ----------------------------------------------------------------------
Static reference tables, transcribed from apmc_service.py.
---------------------------------------------------------------------- -/

/-- `APMC_COORDINATES`: market name → (latitude, longitude). -/
def APMC_COORDINATES : List (String × ℚ × ℚ) :=
  [("Azadpur Mandi", (287041/10000, 771788/10000)),
   ("Khanna Mandi", (306982/10000, 762212/10000)),
   ("Kotkapura Mandi", (305906/10000, 748103/10000)),
   ("Karnal Mandi", (296857/10000, 769905/10000)),
   ("Sonipat Mandi", (289845/10000, 770151/10000)),
   ("Aligarh Mandi", (278974/10000, 780880/10000)),
   ("Meerut Mandi", (289845/10000, 777064/10000)),
   ("Kaithal Mandi", (298015/10000, 763997/10000)),
   ("Amritsar Mandi", (316340/10000, 748723/10000)),
   ("Ludhiana Mandi", (309010/10000, 758573/10000)),
   ("Gorakhpur Mandi", (267606/10000, 833732/10000)),
   ("Varanasi Mandi", (253176/10000, 829739/10000)),
   ("Rajkot Mandi", (223039/10000, 708022/10000)),
   ("Surat Mandi", (211702/10000, 728311/10000)),
   ("Ahmedabad Mandi", (230225/10000, 725714/10000)),
   ("Yavatmal Mandi", (203888/10000, 781353/10000)),
   ("Akola Mandi", (207002/10000, 770082/10000)),
   ("Muzaffarnagar Mandi", (294727/10000, 777085/10000)),
   ("Bijnor Mandi", (293723/10000, 781332/10000)),
   ("Kolhapur Mandi", (167050/10000, 742433/10000)),
   ("Pune Mandi", (185204/10000, 738567/10000)),
   ("Lasalgaon Mandi", (200425/10000, 742357/10000)),
   ("Pimpalgaon Mandi", (201684/10000, 739984/10000)),
   ("Ahmednagar Mandi", (190948/10000, 747480/10000)),
   ("Nashik Mandi", (200063/10000, 737900/10000)),
   ("Agra Mandi", (271767/10000, 780081/10000)),
   ("Farrukhabad Mandi", (273869/10000, 795909/10000)),
   ("Bathinda Mandi", (302110/10000, 749455/10000)),
   ("Moga Mandi", (308101/10000, 751710/10000)),
   ("Rohtak Mandi", (288955/10000, 766066/10000)),
   ("Hisar Mandi", (291492/10000, 757217/10000)),
   ("Kurukshetra Mandi", (299695/10000, 768783/10000)),
   ("Jalandhar Mandi", (313260/10000, 755762/10000)),
   ("Vadodara Mandi", (223072/10000, 731812/10000)),
   ("Wardha Mandi", (207446/10000, 785984/10000)),
   ("Saharanpur Mandi", (299680/10000, 775510/10000)),
   ("Sangli Mandi", (168524/10000, 745815/10000)),
   ("Jalgaon Mandi", (210077/10000, 755626/10000)),
   ("Satara Mandi", (176802/10000, 740183/10000)),
   ("Kanpur Mandi", (264499/10000, 803319/10000)),
   ("Gurgaon Mandi", (284595/10000, 770266/10000)),
   ("Fatehgarh Sahib Mandi", (306518/10000, 763870/10000)),
   ("Bharuch Mandi", (216941/10000, 729677/10000)),
   ("Shamli Mandi", (294527/10000, 773099/10000))]

/-- `APMC_COORDINATES.get(mandi_name)`. -/
def lookupCoord (nm : String) : Option (ℚ × ℚ) :=
  APMC_COORDINATES.lookup nm

/-- `COMMODITY_STORAGE_CLASS`: commodity → storage class. -/
def COMMODITY_STORAGE_CLASS : List (String × String) :=
  [("Tomato", "perishable"), ("Onion", "semi_perishable"),
   ("Potato", "semi_perishable"), ("Brinjal", "perishable"),
   ("Cabbage", "perishable"), ("Cauliflower", "perishable"),
   ("Capsicum", "perishable"), ("Cucumber", "perishable"),
   ("Carrot", "perishable"), ("Green Chilli", "perishable"),
   ("Lady Finger", "perishable"), ("Bitter Gourd", "perishable"),
   ("Bottle Gourd", "perishable"), ("Pumpkin", "semi_perishable"),
   ("Banana", "perishable"), ("Mango", "perishable"),
   ("Papaya", "perishable"), ("Guava", "perishable"),
   ("Grapes", "perishable"), ("Pomegranate", "semi_perishable"),
   ("Apple", "semi_perishable"), ("Orange", "semi_perishable"),
   ("Wheat", "default"), ("Rice", "default"), ("Paddy", "default"),
   ("Maize", "default"), ("Bajra", "default"), ("Jowar", "default"),
   ("Cotton", "default"), ("Groundnut", "default"), ("Soyabean", "default"),
   ("Mustard", "default"), ("Chana", "default"), ("Tur", "default"),
   ("Moong", "default"), ("Urad", "default"), ("Masoor", "default"),
   ("Cumin", "default"), ("Coriander", "default"), ("Turmeric", "default"),
   ("Red Chilli", "default"), ("Ginger", "semi_perishable"),
   ("Garlic", "semi_perishable"), ("Sugarcane", "perishable")]

/-- `COMMODITY_STORAGE_CLASS.get(commodity, "default")`. -/
def storageClassOf (c : String) : String :=
  (COMMODITY_STORAGE_CLASS.lookup c).getD "default"

/-- `STORAGE_COST_PER_QUINTAL_PER_MONTH` (INR per quintal per month). -/
def STORAGE_COST_PER_QUINTAL_PER_MONTH : List (String × Int) :=
  [("default", 50), ("perishable", 150), ("semi_perishable", 80)]

/-- `STORAGE_COST_PER_QUINTAL_PER_MONTH.get(storage_class, 50)`. -/
def storageCostOf (cls : String) : Int :=
  (STORAGE_COST_PER_QUINTAL_PER_MONTH.lookup cls).getD 50

/-- One entry of `SEASONAL_PATTERNS`. -/
structure SeasonalPattern where
  peak_months : List Nat
  low_months : List Nat
  expected_rise_pct : Int
deriving DecidableEq, Repr

/-- `SEASONAL_PATTERNS`: commodity → seasonal price pattern. -/
def SEASONAL_PATTERNS : List (String × SeasonalPattern) :=
  [("Wheat", ⟨[5, 6, 7, 8], [3, 4], 15⟩),
   ("Rice", ⟨[7, 8, 9], [11, 12, 1], 12⟩),
   ("Paddy", ⟨[7, 8, 9], [10, 11, 12], 12⟩),
   ("Cotton", ⟨[6, 7, 8, 9], [11, 12, 1, 2], 20⟩),
   ("Groundnut", ⟨[6, 7, 8], [10, 11, 12], 18⟩),
   ("Onion", ⟨[8, 9, 10], [1, 2, 3, 4, 5], 40⟩),
   ("Potato", ⟨[8, 9, 10, 11], [1, 2, 3], 30⟩),
   ("Tomato", ⟨[5, 6, 7], [11, 12, 1, 2], 50⟩),
   ("Soyabean", ⟨[6, 7, 8], [10, 11, 12], 15⟩),
   ("Maize", ⟨[4, 5, 6], [9, 10, 11], 12⟩),
   ("Chana", ⟨[10, 11, 12], [3, 4, 5], 18⟩)]

/-- `SEASONAL_PATTERNS.get(commodity, {})`, with the empty dict modelled as
`none`. -/
def seasonalPatternOf (c : String) : Option SeasonalPattern :=
  SEASONAL_PATTERNS.lookup c

theorem assocLookup_mem {κ β : Type} [BEq κ] [LawfulBEq κ] (l : List (κ × β))
    (k : κ) (v : β) (h : l.lookup k = some v) : (k, v) ∈ l := by
  induction l with
  | nil => simp [List.lookup] at h
  | cons a t ih =>
    cases a with
    | mk k1 v1 =>
      by_cases hk : k == k1
      · have hk1 : k = k1 := eq_of_beq hk
        have hv : v1 = v := by
          simpa [List.lookup, hk] using h
        subst hk1; subst hv
        exact List.mem_cons_self _ _
      · have ht : List.lookup k t = some v := by
          simpa [List.lookup, hk] using h
        exact List.mem_cons_of_mem _ (ih ht)

/-- Every seasonal-pattern table entry has a non-empty peak month list. -/
theorem seasonalPatternOf_peak_ne_nil (c : String) (p : SeasonalPattern)
    (h : seasonalPatternOf c = some p) : p.peak_months ≠ [] := by
  have hmem := assocLookup_mem _ _ _ h
  have : ∀ pr ∈ SEASONAL_PATTERNS, pr.2.peak_months ≠ [] := by decide
  exact this (c, p) hmem


/- ----------------------------------------------------------------------
Descriptive statistics engine (`_calculate_statistics`) and IQR outlier
detection (`_detect_outliers`).  `math.sqrt` is passed as a parameter
`sqrtFn`; properties that depend on the true square root are stated over `ℝ`
with `Real.sqrt`.
---------------------------------------------------------------------- -/

/-- Arithmetic mean `sum(values) / n`. -/
def listMean (values : List α) : α := values.sum / (values.length : α)

/-- Median of the ascending sort, as computed by `_calculate_statistics`. -/
def listMedian (values : List α) : α :=
  let sorted := sortAscBy id values
  let n := values.length
  if n % 2 = 1 then sorted.getD (n / 2) 0
  else (sorted.getD (n / 2 - 1) 0 + sorted.getD (n / 2) 0) / 2

/-- Population variance `sum((x - mean)**2) / n if n > 1 else 0`. -/
def listVariance (values : List α) : α :=
  if 1 < values.length then
    ((values.map (fun x => (x - listMean values) ^ 2)).sum) /
      (values.length : α)
  else 0

/-- Result record of `_calculate_statistics`. -/
structure Stats (α : Type) where
  count : Nat
  mean : α
  median : α
  min : α
  max : α
  std_dev : α
  coefficient_of_variation : α
deriving DecidableEq, Repr

/-- `_calculate_statistics(values)`; returns `none` for the empty sample
(the Python function returns `{}`). -/
def calculateStatistics (sqrtFn : α → α) (values : List α) :
    Option (Stats α) :=
  if values.isEmpty then none
  else
    some ⟨values.length, round2 (listMean values), round2 (listMedian values),
          round2 (listMin values), round2 (listMax values),
          round2 (sqrtFn (listVariance values)),
          round2 (if 0 < listMean values then
              sqrtFn (listVariance values) / listMean values * 100
            else 0)⟩

/-- One detected outlier (`price` is the 2-decimal-rounded value; the market
metadata is attached when a source record with the same index exists). -/
structure Outlier (α : Type) where
  price : α
  type : String
  mandi_name : Option String
  state : Option String
deriving DecidableEq, Repr

/-- `_detect_outliers(values, price_records)`. -/
def detectOutliers (values : List α) (records : List (MandiPrice α)) :
    List (Outlier α) :=
  if values.length < 4 then []
  else
    let sorted := sortAscBy id values
    let n := sorted.length
    let q1 := sorted.getD (n / 4) 0
    let q3 := sorted.getD (3 * n / 4) 0
    let iqr := q3 - q1
    let lowerFence := q1 - 3 / 2 * iqr
    let upperFence := q3 + 3 / 2 * iqr
    values.enum.filterMap (fun p =>
      if p.2 < lowerFence ∨ upperFence < p.2 then
        some ⟨round2 p.2, if p.2 < lowerFence then "low" else "high",
              (records.get? p.1).map (·.mandi_name),
              (records.get? p.1).map (·.state)⟩
      else none)

/-- `_classify_trend(change_pct)` with `TREND_STABLE_THRESHOLD_PERCENT = 2.0`. -/
def classifyTrend (changePct : α) : String :=
  if 2 < changePct then "up"
  else if changePct < -2 then "down"
  else "stable"


/- ----------------------------------------------------------------------
Cross-market comparison (`compare_prices` / `_build_comparison_analytics`).
---------------------------------------------------------------------- -/

/-- One per-market entry of the comparison result. -/
structure CompareEntry (α : Type) where
  mandi_name : String
  state : String
  district : String
  latest_price : α
  min_price : α
  max_price : α
  modal_price : α
  arrival_date : Int
deriving DecidableEq, Repr

instance : Inhabited (CompareEntry α) :=
  ⟨⟨"", "", "", 0, 0, 0, 0, 0⟩⟩

/-- Aggregate analytics block of the comparison result. -/
structure ComparisonAnalytics (α : Type) where
  average_price : α
  price_range_min : α
  price_range_max : α
  price_spread : α
  price_spread_percent : α
  best_apmc : String
  worst_apmc : String
  statistics : Option (Stats α)
deriving DecidableEq, Repr

/-- Result of `compare_prices`. -/
structure CompareResult (α : Type) where
  commodity : String
  total_apmcs : Nat
  apmcs : List (CompareEntry α)
  analytics : Option (ComparisonAnalytics α)
deriving DecidableEq, Repr

/-- Projection of a row into a comparison entry. -/
def toEntry (r : MandiPrice α) : CompareEntry α :=
  ⟨r.mandi_name, r.state, r.district, r.price_per_quintal, r.min_price,
   r.max_price, r.modal_price, r.arrival_date⟩

/-- `_build_comparison_analytics(prices, entries)` (called only with
non-empty arguments; `entries[0]` / `entries[-1]` are modelled with the
inhabited defaults that are never reached). -/
def buildComparisonAnalytics (sqrtFn : α → α) (prices : List α)
    (entries : List (CompareEntry α)) : ComparisonAnalytics α :=
  ⟨round2 (prices.sum / (prices.length : α)),
   listMin prices, listMax prices,
   round2 (entries.headI.latest_price - entries.getLastI.latest_price),
   (if 0 < entries.getLastI.latest_price then
      round2
        (round2 (entries.headI.latest_price -
            entries.getLastI.latest_price) /
          entries.getLastI.latest_price * 100)
    else 0),
   entries.headI.mandi_name, entries.getLastI.mandi_name,
   calculateStatistics sqrtFn prices⟩

/-- The distinct mandi names selected by `compare_prices` (filtered base
query, optional name list filter, `DISTINCT` in scan order).  An empty name
list behaves like no filter (Python truthiness of `mandi_names`). -/
def compareNames (db : List (MandiPrice α)) (commodity : String)
    (mandiNames : Option (List String)) (state : Option String) :
    List String :=
  match mandiNames with
  | none =>
    dedupFirst
      ((db.filter
          (fun r => matchesCommodity commodity r && matchesState state r)).map
        (·.mandi_name))
  | some ns =>
    if ns.isEmpty then
      dedupFirst
        ((db.filter
            (fun r =>
              matchesCommodity commodity r && matchesState state r)).map
          (·.mandi_name))
    else
      dedupFirst
        (((db.filter
              (fun r =>
                matchesCommodity commodity r && matchesState state r)).filter
            (fun r =>
              (ns.map (fun n => trimStr (lowerStr n))).contains
                (lowerStr r.mandi_name))).map
          (·.mandi_name))

/-- `compare_prices(db, commodity, mandi_names, state)`. -/
def comparePrices (sqrtFn : α → α) (db : List (MandiPrice α))
    (commodity : String) (mandiNames : Option (List String))
    (state : Option String) : CompareResult α :=
  if ((compareNames db commodity mandiNames state).filterMap
      (fun nm => (latestFor db commodity nm).map toEntry)).isEmpty then
    ⟨commodity, 0, [], none⟩
  else
    ⟨commodity,
     (sortDescBy (·.latest_price)
       ((compareNames db commodity mandiNames state).filterMap
         (fun nm => (latestFor db commodity nm).map toEntry))).length,
     sortDescBy (·.latest_price)
       ((compareNames db commodity mandiNames state).filterMap
         (fun nm => (latestFor db commodity nm).map toEntry)),
     some (buildComparisonAnalytics sqrtFn
       ((sortDescBy (·.latest_price)
           ((compareNames db commodity mandiNames state).filterMap
             (fun nm => (latestFor db commodity nm).map toEntry))).map
         (·.latest_price))
       (sortDescBy (·.latest_price)
         ((compareNames db commodity mandiNames state).filterMap
           (fun nm => (latestFor db commodity nm).map toEntry))))⟩

/- ----------------------------------------------------------------------
Best-market recommendation (`find_best_apmc`).
---------------------------------------------------------------------- -/

/-- One ranked recommendation entry. -/
structure Recommendation (α : Type) where
  mandi_name : String
  state : String
  district : String
  latest_price : α
  min_price : α
  max_price : α
  modal_price : α
  distance_km : Option α
  transport_cost_per_quintal : α
  net_price_per_quintal : α
  arrival_date : Int
  rank : Nat
deriving DecidableEq, Repr

/-- Result of `find_best_apmc`. -/
structure BestApmcResult (α : Type) where
  commodity : String
  user_location : Option (α × α)
  max_distance_km : Option α
  total_apmcs : Nat
  recommendations : List (Recommendation α)
deriving DecidableEq, Repr

/-- Build one recommendation from the latest observation, a distance and a
transport cost (`net_price = round(price - transport_cost, 2)`). -/
def mkRecommendation (latest : MandiPrice α) (dist : Option α)
    (transport : α) : Recommendation α :=
  ⟨latest.mandi_name, latest.state, latest.district, latest.price_per_quintal,
   latest.min_price, latest.max_price, latest.modal_price, dist, transport,
   round2 (latest.price_per_quintal - transport), latest.arrival_date, 0⟩

instance : Inhabited (Recommendation α) :=
  ⟨⟨"", "", "", 0, 0, 0, 0, none, 0, 0, 0, 0⟩⟩

/-- The body of the per-mandi loop of `find_best_apmc`.  `hav` is the
haversine primitive (`haversine_distance` in the source); a mandi without a
coordinate is skipped entirely when a user location is given, and a mandi
whose rounded distance exceeds `maxDist` is skipped. -/
def bestRecFor (hav : α → α → α → α → α) (db : List (MandiPrice α))
    (commodity : String) (user : Option (α × α)) (maxDist : α)
    (nm : String) : Option (Recommendation α) :=
  match latestFor db commodity nm with
  | none => none
  | some latest =>
    match user with
    | none => some (mkRecommendation latest none 0)
    | some u =>
      match lookupCoord nm with
      | none => none
      | some c =>
        let d := round1 (hav u.1 u.2 ((c.1 : α)) ((c.2 : α)))
        if maxDist < d then none
        else some (mkRecommendation latest (some d) (round2 (d * (5 / 2))))

/-- `find_best_apmc(db, commodity, user_lat, user_lon, max_distance_km,
state)`; `TRANSPORT_COST_PER_KM_PER_QUINTAL = 2.5`. -/
def findBestApmc (hav : α → α → α → α → α) (db : List (MandiPrice α))
    (commodity : String) (user : Option (α × α)) (maxDist : α)
    (state : Option String) : BestApmcResult α :=
  let base := db.filter
    (fun r => matchesCommodity commodity r && matchesState state r)
  let names := dedupFirst (base.map (·.mandi_name))
  let recs := names.filterMap (bestRecFor hav db commodity user maxDist)
  let sorted := sortDescBy (·.net_price_per_quintal) recs
  let ranked := sorted.enum.map (fun p => { p.2 with rank := p.1 + 1 })
  ⟨commodity, user,
   (match user with | some _ => some maxDist | none => none),
   ranked.length, ranked⟩


/- ----------------------------------------------------------------------
Trend analyzer (`get_price_trends`).
---------------------------------------------------------------------- -/

/-- One aggregated day of `price_history`. -/
structure DayEntry (α : Type) where
  date : Int
  avg_price : α
  min_price : α
  max_price : α
  records : Nat
deriving DecidableEq, Repr

instance : Inhabited (DayEntry α) := ⟨⟨0, 0, 0, 0, 0⟩⟩

/-- The highest or lowest price observation block. -/
structure MandiHighlight (α : Type) where
  mandi_name : String
  state : String
  price : α
  date : Int
deriving DecidableEq, Repr

/-- Python `max(l, key=key)`: first element with maximal key. -/
def firstMaxBy {β : Type} (key : β → α) : List β → Option β
  | [] => none
  | a :: t => some (t.foldl (fun b r => if key b < key r then r else b) a)

/-- Python `min(l, key=key)`: first element with minimal key. -/
def firstMinBy {β : Type} (key : β → α) : List β → Option β
  | [] => none
  | a :: t => some (t.foldl (fun b r => if key r < key b then r else b) a)

/-- Result of `get_price_trends`.  The early "no data" return produces the
sentinel with `data_points = 0`; fields missing from that sentinel dict are
modelled as `none`. -/
structure TrendResult (α : Type) where
  commodity : String
  state : Option String
  period_days : Int
  data_points : Nat
  unique_dates : Nat
  using_full_range : Option Bool
  trend : Option String
  change_percent : α
  statistics : Option (Stats α)
  price_history : List (DayEntry α)
  highest_price_mandi : Option (MandiHighlight α)
  lowest_price_mandi : Option (MandiHighlight α)
  outliers : List (Outlier α)
  message : Option String
deriving DecidableEq, Repr

/-- The split-period trend determination of `get_price_trends`: with at least
two daily entries, compare the mean daily average of the two halves (split at
`len // 2`) and classify the 2-decimal-rounded percentage change; otherwise
`insufficient_data` with change `0`. -/
def splitTrend (history : List (DayEntry α)) : String × α :=
  if 2 ≤ history.length then
    let mid := history.length / 2
    let firstAvg :=
      ((history.take mid).map (·.avg_price)).sum / (mid : α)
    let secondAvg :=
      ((history.drop mid).map (·.avg_price)).sum /
        ((history.length - mid : Nat) : α)
    let changePct :=
      if 0 < firstAvg then
        round2 ((secondAvg - firstAvg) / firstAvg * 100)
      else 0
    (classifyTrend changePct, changePct)
  else ("insufficient_data", 0)

/-- The daily `price_history` of `get_price_trends`: group the (date-sorted)
observations by calendar date and aggregate each date. -/
def priceHistoryOf (prices : List (MandiPrice α)) : List (DayEntry α) :=
  let dates := sortAscBy id (dedupFirst (prices.map (·.arrival_date)))
  dates.map (fun d =>
    let dayPrices :=
      (prices.filter (fun r => r.arrival_date == d)).map (·.price_per_quintal)
    ⟨d, round2 (dayPrices.sum / (dayPrices.length : α)),
     round2 (listMin dayPrices), round2 (listMax dayPrices),
     dayPrices.length⟩)

/-- The base query of `get_price_trends` (commodity plus optional state
filter). -/
def trendBase (db : List (MandiPrice α)) (commodity : String)
    (state : Option String) : List (MandiPrice α) :=
  db.filter (fun r => matchesCommodity commodity r && matchesState state r)

/-- The windowed query: observations with `arrival_date ≥ now - days`,
ordered ascending by date. -/
def trendWindowed (db : List (MandiPrice α)) (commodity : String)
    (state : Option String) (days now : Int) : List (MandiPrice α) :=
  sortAscBy (·.arrival_date)
    ((trendBase db commodity state).filter
      (fun r => now - days ≤ r.arrival_date))

/-- The full-history fallback query, ordered ascending by date. -/
def trendFull (db : List (MandiPrice α)) (commodity : String)
    (state : Option String) : List (MandiPrice α) :=
  sortAscBy (·.arrival_date) (trendBase db commodity state)

/-- The "no price data" sentinel result of `get_price_trends`. -/
def trendSentinel (commodity : String) (state : Option String) (days : Int) :
    TrendResult α :=
  ⟨commodity, state, days, 0, 0, none, none, 0, none, [], none, none, [],
   some "No price data found for this commodity"⟩

/-- The main (non-empty data) result of `get_price_trends`. -/
def trendMain (sqrtFn : α → α) (commodity : String) (state : Option String)
    (days : Int) (usingFullRange : Bool) (prices : List (MandiPrice α)) :
    TrendResult α :=
  ⟨commodity, state, days, prices.length,
   (priceHistoryOf prices).length, some usingFullRange,
   some (splitTrend (priceHistoryOf prices)).1,
   (splitTrend (priceHistoryOf prices)).2,
   calculateStatistics sqrtFn (prices.map (·.price_per_quintal)),
   priceHistoryOf prices,
   (firstMaxBy (·.price_per_quintal) prices).map
     (fun r => ⟨r.mandi_name, r.state, r.price_per_quintal, r.arrival_date⟩),
   (firstMinBy (·.price_per_quintal) prices).map
     (fun r => ⟨r.mandi_name, r.state, r.price_per_quintal, r.arrival_date⟩),
   detectOutliers (prices.map (·.price_per_quintal)) prices, none⟩

/-- `get_price_trends(db, commodity, state, days)` with the clock passed in
(`now` is the current day number; the cutoff is `now - days`).  The windowed
query is tried first; when it is empty the entire history is used and
`using_full_range` is set. -/
def getPriceTrends (sqrtFn : α → α) (db : List (MandiPrice α))
    (commodity : String) (state : Option String) (days : Int) (now : Int) :
    TrendResult α :=
  let windowed := trendWindowed db commodity state days now
  let prices := if windowed.isEmpty then trendFull db commodity state
                else windowed
  if prices.isEmpty then trendSentinel commodity state days
  else trendMain sqrtFn commodity state days windowed.isEmpty prices

/- ----------------------------------------------------------------------
Sell advisory engine (`get_sell_advisory` and
`_calculate_best_selling_window`).
---------------------------------------------------------------------- -/

/-- Factor 1: current price vs historical average, as a percentage
(`0` when the average is not positive). -/
def priceVsAvgPct (cp avg : α) : α :=
  if 0 < avg then (cp - avg) / avg * 100 else 0

/-- Factor 1 score adjustment. -/
def priceAdjust (pct : α) : Int :=
  if 15 < pct then 20
  else if 5 < pct then 10
  else if pct < -15 then -20
  else if pct < -5 then -10
  else 0

/-- Factor 2: price trend score adjustment. -/
def trendAdjust (trend : String) : Int :=
  if trend == "up" then -15 else if trend == "down" then 15 else 0

/-- Factor 3: perishability score adjustment. -/
def storageAdjust (cls : String) : Int :=
  if cls == "perishable" then 25
  else if cls == "semi_perishable" then 10
  else 0

/-- Factor 4: seasonal score adjustment. -/
def seasonAdjust (sp : Option SeasonalPattern) (month : Nat) : Int :=
  match sp with
  | none => 0
  | some p =>
    if p.peak_months.contains month then 20
    else if p.low_months.contains month then -20
    else 0

/-- The `for m in range(1, 7)` search of Factor 5: the first `m` (starting
at `k`) up to 6 whose month `(current_month + m - 1) % 12 + 1` is a peak
month, `0` when none is. -/
def monthsToPeakFrom (peaks : List Nat) (month k : Nat) : Nat :=
  if 6 < k then 0
  else if peaks.contains ((month + k - 1) % 12 + 1) then k
  else monthsToPeakFrom peaks month (k + 1)
termination_by 7 - k

/-- `months_to_peak`: smallest `m ∈ 1..6` whose month
`(current_month + m - 1) % 12 + 1` is a peak month (`0` when none is). -/
def monthsToPeak (sp : Option SeasonalPattern) (month : Nat) : Nat :=
  match sp with
  | none => 0
  | some p => monthsToPeakFrom p.peak_months month 1

/-- `seasonal.get("expected_rise_pct", 10)`. -/
def expectedRiseOf (sp : Option SeasonalPattern) : Int :=
  match sp with
  | some p => p.expected_rise_pct
  | none => 10

/-- Factor 5: storage-economics score adjustment (only for commodities with a
reachable peak month and a non-perishable storage class). -/
def econAdjust (sp : Option SeasonalPattern) (cls : String) (month : Nat)
    (cp storageCost : α) : Int :=
  if 0 < monthsToPeak sp month ∧ cls ≠ "perishable" then
    if 0 < (expectedRiseOf sp : α) / 100 * cp -
        storageCost * (monthsToPeak sp month : α) then -15
    else 10
  else 0

/-- The full sell score: neutral 50 plus the five additive adjustments. -/
def sellScore (pct : α) (trend cls : String) (sp : Option SeasonalPattern)
    (month : Nat) (cp storageCost : α) : Int :=
  50 + priceAdjust pct + trendAdjust trend + storageAdjust cls +
    seasonAdjust sp month + econAdjust sp cls month cp storageCost

/-- The action/confidence pair derived from the final score. -/
structure SellRecommendation where
  action : String
  confidence : Int
deriving DecidableEq, Repr

/-- The recommendation ladder of `get_sell_advisory` (first match wins). -/
def recommendationFor (score : Int) : SellRecommendation :=
  if 70 ≤ score then ⟨"SELL_NOW", min 95 score⟩
  else if 55 ≤ score then ⟨"SELL_SOON", min 80 score⟩
  else if score ≤ 30 then ⟨"STORE", min 90 (100 - score)⟩
  else if score ≤ 45 then ⟨"WAIT", min 75 (100 - score)⟩
  else ⟨"FLEXIBLE", 60⟩

/-- Month names indexed as in the source. -/
def monthNames : List String :=
  ["January", "February", "March", "April", "May", "June", "July", "August",
   "September", "October", "November", "December"]

/-- `month_names[m - 1]`. -/
def monthName (m : Nat) : String := monthNames.getD (m - 1) ""

/-- The best-selling-window block. -/
structure SellingWindow where
  window : String
  start_month : String
  end_month : String
  months_to_wait : Nat
  expected_price_rise_pct : Option Int
  confidence : Int
  reason : String
deriving DecidableEq, Repr

/-- `all(recent[i] <= recent[i+1] ...)`: adjacent non-decreasing. -/
def chainNonDecr : List α → Bool
  | a :: b :: t => decide (a ≤ b) && chainNonDecr (b :: t)
  | _ => true

/-- `all(recent[i] >= recent[i+1] ...)`: adjacent non-increasing. -/
def chainNonIncr : List α → Bool
  | a :: b :: t => decide (b ≤ a) && chainNonIncr (b :: t)
  | _ => true

/-- The wrap-around month distance of `_calculate_best_selling_window`
(`diff = pm - current_month; if diff <= 0: diff += 12`). -/
def monthDiff (month pm : Nat) : Nat :=
  if month < pm then pm - month else pm + 12 - month

/-- `months_ahead[0][1]` after the stable sort by distance: the smallest
wrap-around distance to a peak month. -/
def nextPeakWait (p : SeasonalPattern) (month : Nat) : Nat :=
  (sortAscBy (·.2)
    (p.peak_months.map (fun pm => (pm, monthDiff month pm)))).headI.2

/-- Fallback window: flexible two-month window, confidence 50. -/
def flexibleWindow (month : Nat) : SellingWindow :=
  ⟨"Flexible", monthName month, monthNames.getD ((month + 2) % 12) "", 0,
   none, 50, "No strong seasonal pattern - monitor market conditions"⟩

/-- The trailing price-history analysis of `_calculate_best_selling_window`:
inspect the last five daily averages. -/
def windowFromHistory (month : Nat) (history : List (DayEntry α)) :
    SellingWindow :=
  if 5 ≤ history.length then
    let recent := (history.drop (history.length - 5)).map (·.avg_price)
    if chainNonDecr recent then
      ⟨"Wait 2-4 weeks", monthName month, monthNames.getD (month % 12) "", 1,
       none, 65, "Prices showing consistent upward trend"⟩
    else if chainNonIncr recent then
      ⟨"Immediate", monthName month, monthName month, 0, none, 70,
       "Prices showing consistent downward trend - sell before further drop"⟩
    else flexibleWindow month
  else flexibleWindow month

/-- The seasonal-entry branch of `_calculate_best_selling_window`. -/
def seasonalWindow (month : Nat) (p : SeasonalPattern) (cls : String)
    (history : List (DayEntry α)) : SellingWindow :=
  if p.peak_months.contains month then
    ⟨"Now - Peak Season", monthName month,
     monthName (p.peak_months.getLastD 0), 0, none, 80,
     "Currently in peak price season - sell within this window"⟩
  else if (p.peak_months.map (fun pm => (pm, monthDiff month pm))).isEmpty
  then windowFromHistory month history
  else if cls == "semi_perishable" ∧ 3 < nextPeakWait p month then
    ⟨"Within 1-2 months", monthName month,
     monthNames.getD ((month + 1) % 12) "", 0, none, 70,
     "Semi-perishable - sell before storage losses exceed gains"⟩
  else
    ⟨monthName (p.peak_months.headD 0) ++ " - " ++
       monthName (p.peak_months.getLastD 0),
     monthName (p.peak_months.headD 0), monthName (p.peak_months.getLastD 0),
     nextPeakWait p month, some p.expected_rise_pct, 75,
     "Historical peak season - prices typically " ++
       toString p.expected_rise_pct ++ "% higher"⟩

/-- `_calculate_best_selling_window(commodity, current_month, seasonal,
storage_class, price_history)`. -/
def calculateBestSellingWindow (month : Nat) (sp : Option SeasonalPattern)
    (cls : String) (history : List (DayEntry α)) : SellingWindow :=
  if cls == "perishable" then
    ⟨"Immediate", monthName month, monthName month, 0, none, 85,
     "Perishable commodity - sell before quality degrades"⟩
  else
    match sp with
    | some p => seasonalWindow month p cls history
    | none => windowFromHistory month history

theorem calculateBestSellingWindow_some (month : Nat) (p : SeasonalPattern)
    (cls : String) (history : List (DayEntry α)) :
    calculateBestSellingWindow month (some p) cls history =
      if cls == "perishable" then
        ⟨"Immediate", monthName month, monthName month, 0, none, 85,
         "Perishable commodity - sell before quality degrades"⟩
      else seasonalWindow month p cls history := rfl

theorem calculateBestSellingWindow_none (month : Nat) (cls : String)
    (history : List (DayEntry α)) :
    calculateBestSellingWindow month none cls history =
      if cls == "perishable" then
        ⟨"Immediate", monthName month, monthName month, 0, none, 85,
         "Perishable commodity - sell before quality degrades"⟩
      else windowFromHistory month history := rfl

/-- Result of `get_sell_advisory`; fields absent from the insufficient-data
return are `none`. -/
structure SellAdvisory (α : Type) where
  commodity : String
  has_data : Bool
  message : Option String
  current_price : Option α
  historical_avg : Option α
  historical_max : Option α
  historical_min : Option α
  price_position_percentile : Option α
  trend : Option String
  trend_change_pct : Option α
  storage_class : Option String
  storage_cost_per_month : Option Int
  recommendation : Option SellRecommendation
  best_time_to_sell : Option SellingWindow
deriving DecidableEq, Repr

/-- The insufficient-data return of `get_sell_advisory`. -/
def advisoryRefusal (commodity : String) : SellAdvisory α :=
  ⟨commodity, false,
   some "Insufficient price data to generate recommendation", none, none,
   none, none, none, none, none, none, none, none, none⟩

/-- `current_price` defaulting: the latest day's average when the caller
supplies none (`price_history[-1].get("avg_price", 0)`). -/
def advisoryCp (currentPrice : Option α) (td : TrendResult α) : α :=
  currentPrice.getD td.price_history.getLastI.avg_price

/-- `stats.get(key, current_price)`. -/
def statOr (f : Stats α → α) (stats : Option (Stats α)) (cp : α) : α :=
  match stats with
  | some s => f s
  | none => cp

/-- The main branch of `get_sell_advisory`, computed from the 30-day trend
result `td`. -/
def sellAdvisoryMain (commodity : String) (currentPrice : Option α)
    (month : Nat) (td : TrendResult α) : SellAdvisory α :=
  let trend := td.trend.getD "stable"
  let cp := advisoryCp currentPrice td
  let hAvg := statOr Stats.mean td.statistics cp
  let hMax := statOr Stats.max td.statistics cp
  let hMin := statOr Stats.min td.statistics cp
  let cls := storageClassOf commodity
  let sp := seasonalPatternOf commodity
  let priceRange := hMax - hMin
  let pricePosition :=
    if 0 < priceRange then (cp - hMin) / priceRange * 100 else 50
  let score := sellScore (priceVsAvgPct cp hAvg) trend cls sp month cp
    ((storageCostOf cls : Int) : α)
  ⟨commodity, true, none,
   (if cp = 0 then none else some (round2 cp)),
   some (round2 hAvg), some (round2 hMax), some (round2 hMin),
   some (round1 pricePosition), some trend, some td.change_percent,
   some cls, some (storageCostOf cls), some (recommendationFor score),
   some (calculateBestSellingWindow month sp cls td.price_history)⟩

/-- `get_sell_advisory(db, commodity, current_price, state)`, with the two
clock reads passed in (`now` for the 30-day trend window, `month` for the
current calendar month). -/
def getSellAdvisory (sqrtFn : α → α) (db : List (MandiPrice α))
    (commodity : String) (currentPrice : Option α) (state : Option String)
    (now : Int) (month : Nat) : SellAdvisory α :=
  if (getPriceTrends sqrtFn db commodity state 30 now).data_points < 3 then
    advisoryRefusal commodity
  else
    sellAdvisoryMain commodity currentPrice month
      (getPriceTrends sqrtFn db commodity state 30 now)

/- ----------------------------------------------------------------------
Real haversine (claim C4 speaks about the true great-circle distance).
---------------------------------------------------------------------- -/

/-- `haversine_distance(lat1, lon1, lat2, lon2)` over the reals,
with `math.radians(x) = x * pi / 180` and `EARTH_RADIUS_KM = 6371.0`. -/
noncomputable def haversineDistance (lat1 lon1 lat2 lon2 : ℝ) : ℝ :=
  let dLat := (lat2 - lat1) * Real.pi / 180
  let dLon := (lon2 - lon1) * Real.pi / 180
  let a := Real.sin (dLat / 2) ^ 2 +
    Real.cos (lat1 * Real.pi / 180) * Real.cos (lat2 * Real.pi / 180) *
      Real.sin (dLon / 2) ^ 2
  6371 * (2 * Real.arcsin (Real.sqrt a))

/- ----------------------------------------------------------------------
Claim theorems.
---------------------------------------------------------------------- -/

theorem sortAscBy_id_length (values : List α) :
    (sortAscBy id values).length = values.length :=
  (sortAscBy_perm id values).length_eq

theorem enumFrom_filterMap_map {β γ δ : Type} (F : Nat × β → Option γ)
    (g : γ → δ) (f : β → Option δ)
    (hfg : ∀ i a, (F (i, a)).map g = f a) :
    ∀ (l : List β) (k : Nat),
      ((List.enumFrom k l).filterMap F).map g = l.filterMap f := by
  intro l
  induction l with
  | nil => intro k; simp
  | cons a t ih =>
    intro k
    rw [List.enumFrom, List.filterMap_cons, List.filterMap_cons]
    cases hF : F (k, a) with
    | none =>
      have hfa := hfg k a
      rw [hF] at hfa
      simp only [Option.map_none'] at hfa
      rw [← hfa]
      exact ih (k + 1)
    | some b =>
      have hfa := hfg k a
      rw [hF] at hfa
      simp only [Option.map_some'] at hfa
      rw [← hfa]
      simp only [List.map_cons]
      rw [ih (k + 1)]

/-- C7: outlier detection returns `[]` for fewer than 4 values; for `n ≥ 4`
values it sorts ascending, takes the positional quartiles
`Q1 = sorted[n / 4]` and `Q3 = sorted[3 * n / 4]` (integer division), and
flags exactly the values strictly below `Q1 - 1.5 * IQR` as low and strictly
above `Q3 + 1.5 * IQR` as high, in original sequence order, carrying the
source record's metadata at the matching index when one is supplied; in
particular `[10, 10, 10, 10, 10, 100]` flags `100` as a high outlier. -/
theorem detect_outliers_spec :
    (∀ (values : List ℚ) (records : List (MandiPrice ℚ)),
      values.length < 4 → detectOutliers values records = []) ∧
    (∀ (values : List ℚ) (records : List (MandiPrice ℚ)),
      4 ≤ values.length →
      let sorted := sortAscBy id values
      let q1 := sorted.getD (values.length / 4) 0
      let q3 := sorted.getD (3 * values.length / 4) 0
      let iqr := q3 - q1
      let lowerFence := q1 - 3 / 2 * iqr
      let upperFence := q3 + 3 / 2 * iqr
      ((detectOutliers values records).map (fun o => (o.price, o.type)) =
        values.filterMap (fun v =>
          if v < lowerFence then some (round2 v, "low")
          else if upperFence < v then some (round2 v, "high")
          else none)) ∧
      ∀ o ∈ detectOutliers values records, ∃ i v, values[i]? = some v ∧
        (v < lowerFence ∨ upperFence < v) ∧
        o = ⟨round2 v, if v < lowerFence then "low" else "high",
             (records.get? i).map (·.mandi_name),
             (records.get? i).map (·.state)⟩) ∧
    (detectOutliers ([10, 10, 10, 10, 10, 100] : List ℚ) []).map
        (fun o => (o.price, o.type)) = [((100 : ℚ), "high")] := by
  refine ⟨?_, ?_, ?_⟩
  · intro values records h
    rw [detectOutliers, if_pos h]
  · intro values records h
    intro sorted q1 q3 iqr lowerFence upperFence
    have hlen : (sortAscBy id values).length = values.length :=
      sortAscBy_id_length values
    have hne : ¬ values.length < 4 := not_lt.2 h
    constructor
    · rw [detectOutliers, if_neg hne]
      simp only [hlen]
      rw [List.enum]
      refine enumFrom_filterMap_map _ _ _ ?_ values 0
      intro i a
      by_cases h1 : a < lowerFence
      · have : a < lowerFence ∨ upperFence < a := Or.inl h1
        simp only [if_pos this, if_pos h1, Option.map_some']
      · by_cases h2 : upperFence < a
        · have : a < lowerFence ∨ upperFence < a := Or.inr h2
          simp only [if_pos this, if_neg h1, if_pos h2, Option.map_some']
        · have : ¬ (a < lowerFence ∨ upperFence < a) := by
            push_neg
            exact ⟨not_lt.1 h1, not_lt.1 h2⟩
          simp only [if_neg this, if_neg h1, if_neg h2, Option.map_none']
    · intro o ho
      rw [detectOutliers, if_neg hne] at ho
      simp only [hlen] at ho
      rcases List.mem_filterMap.1 ho with ⟨p, hp, hFp⟩
      have hpm : values[p.1]? = some p.2 := by
        have := (List.mk_mem_enum_iff_getElem? (l := values)
          (i := p.1) (x := p.2)).1 (by simpa using hp)
        exact this
      refine ⟨p.1, p.2, hpm, ?_, ?_⟩
      · by_contra hcon
        rw [if_neg hcon] at hFp
        exact Option.noConfusion hFp
      · by_cases hcond : p.2 < lowerFence ∨ upperFence < p.2
        · rw [if_pos hcond] at hFp
          exact (Option.some.inj hFp).symm
        · rw [if_neg hcond] at hFp
          exact absurd hFp (by simp)
  · rw [detectOutliers]
    norm_num [sortAscBy, insertAscBy, List.enum, List.enumFrom, round2,
      round_eq, List.filterMap]

/-- C7 witness: a three-element list yields no outliers. -/
theorem detect_outliers_spec_witness :
    detectOutliers ([1, 2, 3] : List ℚ) [] = [] :=
  detect_outliers_spec.1 [1, 2, 3] [] (by norm_num)


theorem length_mul_le_sum (l : List α) (m : α) (h : ∀ x ∈ l, m ≤ x) :
    (l.length : α) * m ≤ l.sum := by
  induction l with
  | nil => simp
  | cons a t ih =>
    simp only [List.sum_cons, List.length_cons]
    have ha : m ≤ a := h a (List.mem_cons_self _ _)
    have ht : (t.length : α) * m ≤ t.sum :=
      ih (fun x hx => h x (List.mem_cons_of_mem _ hx))
    push_cast
    nlinarith

theorem sum_le_length_mul (l : List α) (m : α) (h : ∀ x ∈ l, x ≤ m) :
    l.sum ≤ (l.length : α) * m := by
  induction l with
  | nil => simp
  | cons a t ih =>
    simp only [List.sum_cons, List.length_cons]
    have ha : a ≤ m := h a (List.mem_cons_self _ _)
    have ht : t.sum ≤ (t.length : α) * m :=
      ih (fun x hx => h x (List.mem_cons_of_mem _ hx))
    push_cast
    nlinarith

theorem listMin_le_listMean (values : List α) (h : values ≠ []) :
    listMin values ≤ listMean values := by
  have hn : (0 : α) < (values.length : α) := by
    have : 0 < values.length := List.length_pos.2 h
    exact_mod_cast this
  have hsum : (values.length : α) * listMin values ≤ values.sum :=
    length_mul_le_sum values _ (fun x hx => listMin_le hx)
  rw [listMean, le_div_iff hn]
  linarith [hsum]

theorem listMean_le_listMax (values : List α) (h : values ≠ []) :
    listMean values ≤ listMax values := by
  have hn : (0 : α) < (values.length : α) := by
    have : 0 < values.length := List.length_pos.2 h
    exact_mod_cast this
  have hsum : values.sum ≤ (values.length : α) * listMax values :=
    sum_le_length_mul values _ (fun x hx => le_listMax hx)
  rw [listMean, div_le_iff hn]
  linarith [hsum]

theorem sum_of_const (l : List α) (c : α) (h : ∀ x ∈ l, x = c) :
    l.sum = (l.length : α) * c := by
  induction l with
  | nil => simp
  | cons a t ih =>
    simp only [List.sum_cons, List.length_cons]
    have ha : a = c := h a (List.mem_cons_self _ _)
    have ht : t.sum = (t.length : α) * c :=
      ih (fun x hx => h x (List.mem_cons_of_mem _ hx))
    push_cast
    rw [ha, ht]
    ring

theorem listMean_const (values : List α) (c : α) (hne : values ≠ [])
    (h : ∀ x ∈ values, x = c) : listMean values = c := by
  have hn : (0 : α) < (values.length : α) := by
    have : 0 < values.length := List.length_pos.2 hne
    exact_mod_cast this
  rw [listMean, sum_of_const values c h, mul_comm, mul_div_assoc,
    div_self (ne_of_gt hn), mul_one]

theorem listVariance_const (values : List α) (c : α)
    (h : ∀ x ∈ values, x = c) : listVariance values = 0 := by
  rw [listVariance]
  by_cases hlen : 1 < values.length
  · rw [if_pos hlen]
    have hne : values ≠ [] := by
      intro hempty
      rw [hempty] at hlen
      simp at hlen
    have hmean : listMean values = c := listMean_const values c hne h
    have hzero : (values.map (fun x => (x - listMean values) ^ 2)).sum = 0 := by
      apply List.sum_eq_zero
      intro y hy
      rcases List.mem_map.1 hy with ⟨x, hx, hxy⟩
      rw [← hxy, hmean, h x hx, sub_self]
      ring
    rw [hzero, zero_div]
  · rw [if_neg hlen]

/-- C6 (amended): for a non-empty sample `_calculate_statistics` returns
count `n` and the 2-decimal-rounded mean, median (average of the two middle
elements of the ascending sort for even `n`), minimum, maximum, population
standard deviation (`sqrt` of the divisor-`n` variance) and coefficient of
variation (`std_dev / mean * 100` when the mean is positive, else `0`);
consequently `min ≤ mean ≤ max` and `std_dev ≥ 0`, a constant sample has
`std_dev = 0` and `coefficient_of_variation = 0`, and the empty sample
yields an empty result rather than an error. -/
theorem statistics_spec :
    (calculateStatistics Real.sqrt ([] : List ℝ) = none) ∧
    (∀ (values : List ℝ) (s : Stats ℝ),
      calculateStatistics Real.sqrt values = some s →
      (s = ⟨values.length, round2 (listMean values),
            round2 (listMedian values), round2 (listMin values),
            round2 (listMax values),
            round2 (Real.sqrt (listVariance values)),
            round2 (if 0 < listMean values then
                Real.sqrt (listVariance values) / listMean values * 100
              else 0)⟩) ∧
      (∀ x ∈ values, listMin values ≤ x ∧ x ≤ listMax values) ∧
      s.min ≤ s.mean ∧ s.mean ≤ s.max ∧ 0 ≤ s.std_dev ∧
      (listMean values ≤ 0 → s.coefficient_of_variation = 0) ∧
      (∀ c : ℝ, (∀ x ∈ values, x = c) →
        s.std_dev = 0 ∧ s.coefficient_of_variation = 0)) := by
  constructor
  · rfl
  · intro values s hs
    have hvne : values ≠ [] := by
      intro hempty
      rw [hempty] at hs
      exact Option.noConfusion hs
    have hcond : ¬(values.isEmpty = true) := by
      simp [List.isEmpty_iff, hvne]
    rw [calculateStatistics, if_neg hcond] at hs
    have hseq := (Option.some.inj hs).symm
    refine ⟨hseq, ?_, ?_, ?_, ?_, ?_, ?_⟩
    · intro x hx
      exact ⟨listMin_le hx, le_listMax hx⟩
    · rw [hseq]
      exact round2_mono (listMin_le_listMean values hvne)
    · rw [hseq]
      exact round2_mono (listMean_le_listMax values hvne)
    · rw [hseq]
      exact round2_nonneg (Real.sqrt_nonneg _)
    · intro hmean
      rw [hseq]
      have : ¬ (0 < listMean values) := not_lt.2 hmean
      simp only [if_neg this]
      exact round2_zero
    · intro c hc
      have hvar : listVariance values = 0 := listVariance_const values c hc
      constructor
      · rw [hseq]
        simp only [hvar, Real.sqrt_zero]
        exact round2_zero
      · rw [hseq]
        by_cases hm : 0 < listMean values
        · simp only [if_pos hm, hvar, Real.sqrt_zero, zero_div, zero_mul]
          exact round2_zero
        · simp only [if_neg hm]
          exact round2_zero

/-- C6 counterexample: the claim asserts `mean` equals the arithmetic mean,
but the code returns the 2-decimal-rounded mean: for `[1, 2, 4]` the stored
mean is `2.33`, not `7/3`. -/
theorem statistics_rounding_counterexample :
    ((calculateStatistics Real.sqrt ([1, 2, 4] : List ℝ)).map Stats.mean) =
      some ((233 : ℝ) / 100) ∧
    ((233 : ℝ) / 100) ≠ ((1 : ℝ) + 2 + 4) / 3 := by
  constructor
  · have hcond : ¬(([1, 2, 4] : List ℝ).isEmpty = true) := by simp
    rw [calculateStatistics, if_neg hcond, Option.map_some']
    have hmean : listMean ([1, 2, 4] : List ℝ) = 7 / 3 := by
      norm_num [listMean]
    have : round2 ((7 : ℝ) / 3) = 233 / 100 := by
      rw [round2]
      norm_num [round_eq]
    simp only [hmean, this]
  · norm_num

/-- C6 witness: the amended statement instantiated on the constant sample
`[2, 2]`. -/
theorem statistics_spec_witness :
    ∃ s : Stats ℝ, calculateStatistics Real.sqrt ([2, 2] : List ℝ) = some s ∧
      s.std_dev = 0 ∧ s.coefficient_of_variation = 0 := by
  have hcond : ¬(([2, 2] : List ℝ).isEmpty = true) := by simp
  have hs : calculateStatistics Real.sqrt ([2, 2] : List ℝ) =
      some ⟨2, round2 (listMean [2, 2]), round2 (listMedian [2, 2]),
            round2 (listMin [2, 2]), round2 (listMax [2, 2]),
            round2 (Real.sqrt (listVariance [2, 2])),
            round2 (if 0 < listMean ([2, 2] : List ℝ) then
                Real.sqrt (listVariance [2, 2]) / listMean [2, 2] * 100
              else 0)⟩ := by
    rw [calculateStatistics, if_neg hcond]
    rfl
  have h := (statistics_spec.2 [2, 2] _ hs).2.2.2.2.2.2 2 (by
    intro x hx
    rcases List.mem_cons.1 hx with h1 | h1
    · exact h1
    · rcases List.mem_cons.1 h1 with h2 | h2
      · exact h2
      · simp at h2)
  exact ⟨_, hs, h⟩


theorem classifyTrend_up_iff (c : α) : classifyTrend c = "up" ↔ 2 < c := by
  rw [classifyTrend]
  constructor
  · intro h
    by_contra hc
    rw [if_neg hc] at h
    split at h <;> exact absurd h (by decide)
  · intro h
    rw [if_pos h]

theorem classifyTrend_down_iff (c : α) :
    classifyTrend c = "down" ↔ c < -2 := by
  rw [classifyTrend]
  constructor
  · intro h
    by_cases h1 : 2 < c
    · rw [if_pos h1] at h
      exact absurd h (by decide)
    · rw [if_neg h1] at h
      by_contra hc
      rw [if_neg hc] at h
      exact absurd h (by decide)
  · intro h
    have h1 : ¬ 2 < c := by linarith
    rw [if_neg h1, if_pos h]

theorem classifyTrend_stable_iff (c : α) :
    classifyTrend c = "stable" ↔ (-2 ≤ c ∧ c ≤ 2) := by
  rw [classifyTrend]
  constructor
  · intro h
    by_cases h1 : 2 < c
    · rw [if_pos h1] at h
      exact absurd h (by decide)
    · by_cases h2 : c < -2
      · rw [if_neg h1, if_pos h2] at h
        exact absurd h (by decide)
      · exact ⟨le_of_not_lt h2, le_of_not_lt h1⟩
  · intro h
    rw [if_neg (not_lt.2 h.2), if_neg (not_lt.2 h.1)]

theorem splitTrend_fst (history : List (DayEntry α))
    (h : 2 ≤ history.length) :
    (splitTrend history).1 = classifyTrend (splitTrend history).2 := by
  rw [splitTrend, if_pos h]

theorem priceHistoryOf_map_date (prices : List (MandiPrice α)) :
    (priceHistoryOf prices).map (·.date) =
      sortAscBy id (dedupFirst (prices.map (·.arrival_date))) := by
  rw [priceHistoryOf, List.map_map]
  exact List.map_id'' (fun d => rfl) _

theorem priceHistoryOf_dates_nodup (prices : List (MandiPrice α)) :
    ((priceHistoryOf prices).map (·.date)).Nodup := by
  rw [priceHistoryOf_map_date]
  exact ((sortAscBy_perm id _).nodup_iff).2
    (dedupFirst_nodup (prices.map (·.arrival_date)))

/-- C2 (amended): for a trend result computed from data, `trend` and
`change_percent` come from the split-period comparison of `price_history`
(whose dates are pairwise distinct); when the history has at least 2 daily
entries, the list is split at `len // 2` (the first half never larger),
`change_percent` is the **2-decimal-rounded** value of
`(second_half_mean - first_half_mean) / first_half_mean * 100` (`0` when the
first-half mean is not positive), and the trend is `up` exactly when
`change_percent > 2.0`, `down` exactly when `< -2.0` and `stable` otherwise;
with fewer than 2 entries the trend is `insufficient_data` with change `0`. -/
theorem trend_classification_spec :
    (∀ (sqrtFn : ℚ → ℚ) (db : List (MandiPrice ℚ)) (commodity : String)
        (state : Option String) (days now : Int),
      (getPriceTrends sqrtFn db commodity state days now).data_points ≠ 0 →
      (getPriceTrends sqrtFn db commodity state days now).trend =
          some (splitTrend (getPriceTrends sqrtFn db commodity state days now).price_history).1 ∧
      (getPriceTrends sqrtFn db commodity state days now).change_percent =
          (splitTrend (getPriceTrends sqrtFn db commodity state days now).price_history).2 ∧
      ((getPriceTrends sqrtFn db commodity state days now).price_history.map
          (·.date)).Nodup) ∧
    (∀ history : List (DayEntry ℚ), 2 ≤ history.length →
      (history.take (history.length / 2)).length ≤
          (history.drop (history.length / 2)).length ∧
      (splitTrend history).2 =
        (if 0 < ((history.take (history.length / 2)).map (·.avg_price)).sum /
              ((history.length / 2 : Nat) : ℚ) then
          round2
            ((((history.drop (history.length / 2)).map (·.avg_price)).sum /
                ((history.length - history.length / 2 : Nat) : ℚ) -
              ((history.take (history.length / 2)).map (·.avg_price)).sum /
                ((history.length / 2 : Nat) : ℚ)) /
              (((history.take (history.length / 2)).map (·.avg_price)).sum /
                ((history.length / 2 : Nat) : ℚ)) * 100)
        else 0) ∧
      ((splitTrend history).1 = "up" ↔ 2 < (splitTrend history).2) ∧
      ((splitTrend history).1 = "down" ↔ (splitTrend history).2 < -2) ∧
      ((splitTrend history).1 = "stable" ↔
        (-2 ≤ (splitTrend history).2 ∧ (splitTrend history).2 ≤ 2))) ∧
    (∀ history : List (DayEntry ℚ), history.length < 2 →
      splitTrend history = ("insufficient_data", 0)) := by
  refine ⟨?_, ?_, ?_⟩
  · intro sqrtFn db commodity state days now hdp
    rw [getPriceTrends] at hdp ⊢
    by_cases hemp :
        ((if (trendWindowed db commodity state days now).isEmpty then
            trendFull db commodity state
          else trendWindowed db commodity state days now).isEmpty = true)
    · rw [if_pos hemp] at hdp
      exact absurd rfl hdp
    · rw [if_neg hemp]
      exact ⟨rfl, rfl, priceHistoryOf_dates_nodup _⟩
  · intro history hlen
    refine ⟨?_, ?_, ?_, ?_, ?_⟩
    · simp only [List.length_take, List.length_drop]
      omega
    · rw [splitTrend, if_pos hlen]
    · rw [splitTrend_fst history hlen]
      exact classifyTrend_up_iff _
    · rw [splitTrend_fst history hlen]
      exact classifyTrend_down_iff _
    · rw [splitTrend_fst history hlen]
      exact classifyTrend_stable_iff _
  · intro history hlen
    rw [splitTrend, if_neg (not_le.2 hlen)]

/-- C2 counterexample: the claim equates `change_percent` with the exact
expression `(second_half_mean - first_half_mean) / first_half_mean * 100`,
but the code stores the 2-decimal-rounded value: on daily averages 300 and
301 the code yields `0.33`, while the exact expression is `1/3`. -/
theorem trend_change_percent_rounding_counterexample :
    ((getPriceTrends (fun x : ℚ => x)
        [⟨"w", "m", "s", "d", 300, 0, 0, 0, 1⟩,
         ⟨"w", "m", "s", "d", 301, 0, 0, 0, 2⟩] "w" none 30 2).price_history.map
        (·.avg_price) = [(300 : ℚ), 301]) ∧
    (getPriceTrends (fun x : ℚ => x)
        [⟨"w", "m", "s", "d", 300, 0, 0, 0, 1⟩,
         ⟨"w", "m", "s", "d", 301, 0, 0, 0, 2⟩] "w" none 30 2).change_percent =
      33 / 100 ∧
    ((33 : ℚ) / 100 ≠ ((301 : ℚ) - 300) / 300 * 100) := by
  have h0 : getPriceTrends (fun x : ℚ => x)
      [⟨"w", "m", "s", "d", 300, 0, 0, 0, 1⟩,
       ⟨"w", "m", "s", "d", 301, 0, 0, 0, 2⟩] "w" none 30 2 =
      trendMain (fun x : ℚ => x) "w" none 30 false
        [⟨"w", "m", "s", "d", 300, 0, 0, 0, 1⟩,
         ⟨"w", "m", "s", "d", 301, 0, 0, 0, 2⟩] := rfl
  have h1 : priceHistoryOf
      ([⟨"w", "m", "s", "d", 300, 0, 0, 0, 1⟩,
        ⟨"w", "m", "s", "d", 301, 0, 0, 0, 2⟩] : List (MandiPrice ℚ)) =
      [⟨1, 300, 300, 300, 1⟩, ⟨2, 301, 301, 301, 1⟩] := by
    norm_num +decide [priceHistoryOf, sortAscBy, insertAscBy, dedupFirst,
      listMin, listMax, round2, round_eq]
  have h2 : (splitTrend
      ([⟨1, 300, 300, 300, 1⟩, ⟨2, 301, 301, 301, 1⟩] :
        List (DayEntry ℚ))).2 = 33 / 100 := by
    norm_num [splitTrend, classifyTrend, round2, round_eq]
  refine ⟨?_, ?_, by norm_num⟩
  · rw [h0]
    show (priceHistoryOf _).map (·.avg_price) = _
    rw [h1]
    rfl
  · rw [h0]
    show (splitTrend (priceHistoryOf _)).2 = _
    rw [h1, h2]

/-- C2 witness: the amended statement applied to a two-day history. -/
theorem trend_classification_spec_witness :
    (getPriceTrends (fun x : ℚ => x)
        [⟨"w", "m", "s", "d", 300, 0, 0, 0, 1⟩,
         ⟨"w", "m", "s", "d", 301, 0, 0, 0, 2⟩] "w" none 30 2).trend =
      some (splitTrend (getPriceTrends (fun x : ℚ => x)
        [⟨"w", "m", "s", "d", 300, 0, 0, 0, 1⟩,
         ⟨"w", "m", "s", "d", 301, 0, 0, 0, 2⟩] "w" none 30 2).price_history).1 :=
  (trend_classification_spec.1 (fun x : ℚ => x)
    [⟨"w", "m", "s", "d", 300, 0, 0, 0, 1⟩,
     ⟨"w", "m", "s", "d", 301, 0, 0, 0, 2⟩] "w" none 30 2
    (by decide)).1

theorem sortAscBy_date_length (l : List (MandiPrice α)) :
    (sortAscBy (·.arrival_date) l).length = l.length :=
  (sortAscBy_perm (·.arrival_date) l).length_eq

theorem trendFull_ne_nil {db : List (MandiPrice α)} {commodity : String}
    {state : Option String} (h : trendBase db commodity state ≠ []) :
    trendFull db commodity state ≠ [] := by
  intro hfull
  apply h
  have := congrArg List.length hfull
  rw [trendFull, sortAscBy_date_length] at this
  exact List.length_eq_zero.1 this

/-- C10: when no observation falls in the window but the commodity has
history, the analysis is computed over the entire history with
`using_full_range = true`; when the commodity has no observations at all,
the result is the sentinel with `data_points = 0` and a no-data message.
Both cases are values of the total function, so no exception is raised. -/
theorem trend_fallback_spec :
    ∀ (sqrtFn : ℚ → ℚ) (db : List (MandiPrice ℚ)) (commodity : String)
      (state : Option String) (days now : Int),
      (trendBase db commodity state ≠ [] →
        trendWindowed db commodity state days now = [] →
        (getPriceTrends sqrtFn db commodity state days now).using_full_range =
            some true ∧
        (getPriceTrends sqrtFn db commodity state days now).data_points =
            (trendBase db commodity state).length ∧
        (getPriceTrends sqrtFn db commodity state days now).message = none) ∧
      (trendBase db commodity state = [] →
        (getPriceTrends sqrtFn db commodity state days now).data_points = 0 ∧
        (getPriceTrends sqrtFn db commodity state days now).message =
          some "No price data found for this commodity") := by
  intro sqrtFn db commodity state days now
  constructor
  · intro hbase hwin
    have hwinEmpty : (trendWindowed db commodity state days now).isEmpty =
        true := by
      rw [hwin]; rfl
    have hfullne : trendFull db commodity state ≠ [] := trendFull_ne_nil hbase
    have hfullEmpty : (trendFull db commodity state).isEmpty = false := by
      cases hf : (trendFull db commodity state).isEmpty
      · rfl
      · exact absurd (List.isEmpty_iff.1 hf) hfullne
    rw [getPriceTrends]
    simp only [hwinEmpty, if_true]
    rw [if_neg (by rw [hfullEmpty]; exact Bool.false_ne_true)]
    refine ⟨rfl, ?_, rfl⟩
    show (trendFull db commodity state).length = _
    rw [trendFull, sortAscBy_date_length]
  · intro hbase
    have hwin : trendWindowed db commodity state days now = [] := by
      rw [trendWindowed, hbase]
      rfl
    have hfull : trendFull db commodity state = [] := by
      rw [trendFull, hbase]
      rfl
    rw [getPriceTrends]
    simp only [hwin, hfull]
    exact ⟨rfl, rfl⟩

/-- C10 witness: a database whose only row is outside the 30-day window
still yields a full-range analysis, and an unknown commodity yields the
sentinel. -/
theorem trend_fallback_spec_witness :
    (getPriceTrends (fun x : ℚ => x)
        [⟨"w", "m", "s", "d", 300, 0, 0, 0, 1⟩] "w" none 30 100).using_full_range = some true ∧
    (getPriceTrends (fun x : ℚ => x)
        [⟨"w", "m", "s", "d", 300, 0, 0, 0, 1⟩] "q" none 30 100).data_points = 0 :=
  ⟨((trend_fallback_spec (fun x : ℚ => x)
      [⟨"w", "m", "s", "d", 300, 0, 0, 0, 1⟩] "w" none 30 100).1
      (by decide) (by decide)).1,
   ((trend_fallback_spec (fun x : ℚ => x)
      [⟨"w", "m", "s", "d", 300, 0, 0, 0, 1⟩] "q" none 30 100).2
      (by decide)).1⟩

/-- C9: whenever the 30-day trend analysis yields fewer than 3 data points,
the sell advisory returns `has_data = false` with a `null` recommendation
(a value, not an exception); in particular a commodity with exactly 2
observations inside the window is refused. -/
theorem advisory_refusal_spec :
    ∀ (sqrtFn : ℚ → ℚ) (db : List (MandiPrice ℚ)) (commodity : String)
      (currentPrice : Option ℚ) (state : Option String) (now : Int)
      (month : Nat),
      ((getPriceTrends sqrtFn db commodity state 30 now).data_points < 3 →
        (getSellAdvisory sqrtFn db commodity currentPrice state now month).has_data = false ∧
        (getSellAdvisory sqrtFn db commodity currentPrice state now month).recommendation = none) ∧
      ((trendWindowed db commodity state 30 now).length = 2 →
        (getSellAdvisory sqrtFn db commodity currentPrice state now month).has_data = false ∧
        (getSellAdvisory sqrtFn db commodity currentPrice state now month).recommendation = none) := by
  intro sqrtFn db commodity currentPrice state now month
  have main : (getPriceTrends sqrtFn db commodity state 30 now).data_points <
      3 →
      (getSellAdvisory sqrtFn db commodity currentPrice state now month).has_data = false ∧
      (getSellAdvisory sqrtFn db commodity currentPrice state now month).recommendation = none := by
    intro h
    rw [getSellAdvisory, if_pos h]
    exact ⟨rfl, rfl⟩
  refine ⟨main, ?_⟩
  intro hw
  apply main
  have hwne : trendWindowed db commodity state 30 now ≠ [] := by
    intro hnil
    rw [hnil] at hw
    exact absurd hw (by decide)
  have hwinEmpty : (trendWindowed db commodity state 30 now).isEmpty =
      false := by
    cases hf : (trendWindowed db commodity state 30 now).isEmpty
    · rfl
    · exact absurd (List.isEmpty_iff.1 hf) hwne
  have hif : (if (trendWindowed db commodity state 30 now).isEmpty = true
      then trendFull db commodity state
      else trendWindowed db commodity state 30 now) =
      trendWindowed db commodity state 30 now := by
    rw [hwinEmpty]
    simp
  rw [getPriceTrends]
  simp only [hif]
  rw [if_neg (by rw [hwinEmpty]; exact Bool.false_ne_true)]
  show (trendWindowed db commodity state 30 now).length < 3
  rw [hw]
  decide

/-- C9 witness: two in-window observations are refused. -/
theorem advisory_refusal_spec_witness :
    (getSellAdvisory (fun x : ℚ => x)
        [⟨"w", "m", "s", "d", 300, 0, 0, 0, 1⟩,
         ⟨"w", "m", "s", "d", 301, 0, 0, 0, 2⟩] "w" none none 2 5).has_data = false :=
  ((advisory_refusal_spec (fun x : ℚ => x)
      [⟨"w", "m", "s", "d", 300, 0, 0, 0, 1⟩,
       ⟨"w", "m", "s", "d", 301, 0, 0, 0, 2⟩] "w" none none 2 5).2
    (by decide)).1

theorem monthsToPeakFrom_spec (peaks : List Nat) (month : Nat) :
    ∀ (n k : Nat), k + n = 7 → 1 ≤ k →
      (monthsToPeakFrom peaks month k = 0 →
        ∀ m, k ≤ m → m ≤ 6 →
          peaks.contains ((month + m - 1) % 12 + 1) = false) ∧
      (0 < monthsToPeakFrom peaks month k →
        k ≤ monthsToPeakFrom peaks month k ∧
        monthsToPeakFrom peaks month k ≤ 6 ∧
        peaks.contains
          ((month + monthsToPeakFrom peaks month k - 1) % 12 + 1) = true ∧
        ∀ m, k ≤ m → m < monthsToPeakFrom peaks month k →
          peaks.contains ((month + m - 1) % 12 + 1) = false) := by
  intro n
  induction n with
  | zero =>
    intro k hk hk1
    have hk7 : k = 7 := by omega
    subst hk7
    rw [monthsToPeakFrom, if_pos (by omega)]
    exact ⟨fun _ m hm1 hm2 => by omega, fun h => absurd h (by omega)⟩
  | succ n ih =>
    intro k hk hk1
    have hk6 : ¬ 6 < k := by omega
    rw [monthsToPeakFrom, if_neg hk6]
    by_cases hc : peaks.contains ((month + k - 1) % 12 + 1) = true
    · rw [if_pos hc]
      refine ⟨fun h0 => by omega, fun _ =>
        ⟨le_rfl, by omega, hc, fun m hm1 hm2 => by omega⟩⟩
    · rw [if_neg hc]
      have hcf : peaks.contains ((month + k - 1) % 12 + 1) = false :=
        Bool.eq_false_iff.2 hc
      rcases ih (k + 1) (by omega) (by omega) with ⟨ihz, ihp⟩
      constructor
      · intro h0 m hm1 hm2
        by_cases hmk : m = k
        · subst hmk; exact hcf
        · exact ihz h0 m (by omega) hm2
      · intro hpos
        rcases ihp hpos with ⟨hge, hle, hcont, hmin⟩
        refine ⟨by omega, hle, hcont, fun m hm1 hm2 => ?_⟩
        by_cases hmk : m = k
        · subst hmk; exact hcf
        · exact hmin m (by omega) hm2

theorem monthsToPeak_bounds (pp : SeasonalPattern) (month : Nat) :
    (monthsToPeak (some pp) month = 0 →
      ∀ m, 1 ≤ m → m ≤ 6 →
        pp.peak_months.contains ((month + m - 1) % 12 + 1) = false) ∧
    (0 < monthsToPeak (some pp) month →
      1 ≤ monthsToPeak (some pp) month ∧ monthsToPeak (some pp) month ≤ 6 ∧
      pp.peak_months.contains
        ((month + monthsToPeak (some pp) month - 1) % 12 + 1) = true ∧
      ∀ m, 1 ≤ m → m < monthsToPeak (some pp) month →
        pp.peak_months.contains ((month + m - 1) % 12 + 1) = false) :=
  monthsToPeakFrom_spec pp.peak_months month 6 1 rfl le_rfl

/-- C1: every advisory with `has_data = true` carries the recommendation
derived from `recommendationFor (sellScore ...)`: a score starting at 50 with
exactly five additive adjustments (price-vs-30-day-average band, trend
direction, storage class, seasonal peak/low month, and the storage-economics
test applied only when a peak month is reachable within 6 months, wrapping
year-end, and the class is not perishable), and the final action/confidence
follow the first matching row of the score ladder. -/
theorem sell_advisory_score_spec :
    (∀ (sqrtFn : ℚ → ℚ) (db : List (MandiPrice ℚ)) (commodity : String)
        (currentPrice : Option ℚ) (state : Option String) (now : Int)
        (month : Nat),
      (getSellAdvisory sqrtFn db commodity currentPrice state now
          month).has_data = true →
      getSellAdvisory sqrtFn db commodity currentPrice state now month =
        sellAdvisoryMain commodity currentPrice month
          (getPriceTrends sqrtFn db commodity state 30 now)) ∧
    (∀ (commodity : String) (currentPrice : Option ℚ) (month : Nat)
        (td : TrendResult ℚ),
      (sellAdvisoryMain commodity currentPrice month td).recommendation =
        some (recommendationFor (sellScore
          (priceVsAvgPct (advisoryCp currentPrice td)
            (statOr Stats.mean td.statistics (advisoryCp currentPrice td)))
          (td.trend.getD "stable") (storageClassOf commodity)
          (seasonalPatternOf commodity) month (advisoryCp currentPrice td)
          ((storageCostOf (storageClassOf commodity) : Int) : ℚ)))) ∧
    (∀ (pct : ℚ) (trend cls : String) (sp : Option SeasonalPattern)
        (month : Nat) (cp cost : ℚ),
      sellScore pct trend cls sp month cp cost =
        50 + priceAdjust pct + trendAdjust trend + storageAdjust cls +
          seasonAdjust sp month + econAdjust sp cls month cp cost) ∧
    (∀ pct : ℚ,
      (15 < pct → priceAdjust pct = 20) ∧
      (5 < pct ∧ pct ≤ 15 → priceAdjust pct = 10) ∧
      (pct < -15 → priceAdjust pct = -20) ∧
      (-15 ≤ pct ∧ pct < -5 → priceAdjust pct = -10) ∧
      (-5 ≤ pct ∧ pct ≤ 5 → priceAdjust pct = 0)) ∧
    ((trendAdjust "up" = -15) ∧ (trendAdjust "down" = 15) ∧
      ∀ t : String, t ≠ "up" → t ≠ "down" → trendAdjust t = 0) ∧
    ((storageAdjust "perishable" = 25) ∧
      (storageAdjust "semi_perishable" = 10) ∧
      ∀ c : String, c ≠ "perishable" → c ≠ "semi_perishable" →
        storageAdjust c = 0) ∧
    (∀ month : Nat, seasonAdjust none month = 0) ∧
    (∀ (p : SeasonalPattern) (month : Nat),
      (p.peak_months.contains month = true →
        seasonAdjust (some p) month = 20) ∧
      (p.peak_months.contains month = false →
        p.low_months.contains month = true →
        seasonAdjust (some p) month = -20) ∧
      (p.peak_months.contains month = false →
        p.low_months.contains month = false →
        seasonAdjust (some p) month = 0)) ∧
    (∀ (sp : Option SeasonalPattern) (cls : String) (month : Nat)
        (cp cost : ℚ),
      (monthsToPeak sp month = 0 → econAdjust sp cls month cp cost = 0) ∧
      (cls = "perishable" → econAdjust sp cls month cp cost = 0) ∧
      (∀ p : SeasonalPattern, sp = some p → 0 < monthsToPeak sp month →
        cls ≠ "perishable" →
        (0 < (p.expected_rise_pct : ℚ) / 100 * cp -
            cost * (monthsToPeak sp month : ℚ) →
          econAdjust sp cls month cp cost = -15) ∧
        ((p.expected_rise_pct : ℚ) / 100 * cp -
            cost * (monthsToPeak sp month : ℚ) ≤ 0 →
          econAdjust sp cls month cp cost = 10))) ∧
    (∀ (pp : SeasonalPattern) (month : Nat),
      (monthsToPeak (some pp) month = 0 →
        ∀ m, 1 ≤ m → m ≤ 6 →
          pp.peak_months.contains ((month + m - 1) % 12 + 1) = false) ∧
      (0 < monthsToPeak (some pp) month →
        1 ≤ monthsToPeak (some pp) month ∧
        monthsToPeak (some pp) month ≤ 6 ∧
        pp.peak_months.contains
          ((month + monthsToPeak (some pp) month - 1) % 12 + 1) = true ∧
        ∀ m, 1 ≤ m → m < monthsToPeak (some pp) month →
          pp.peak_months.contains ((month + m - 1) % 12 + 1) = false)) ∧
    (∀ score : Int,
      (70 ≤ score → recommendationFor score = ⟨"SELL_NOW", min 95 score⟩) ∧
      (55 ≤ score → score < 70 →
        recommendationFor score = ⟨"SELL_SOON", min 80 score⟩) ∧
      (score ≤ 30 →
        recommendationFor score = ⟨"STORE", min 90 (100 - score)⟩) ∧
      (31 ≤ score → score ≤ 45 →
        recommendationFor score = ⟨"WAIT", min 75 (100 - score)⟩) ∧
      (46 ≤ score → score ≤ 54 →
        recommendationFor score = ⟨"FLEXIBLE", 60⟩)) := by
  refine ⟨?_, ?_, ?_, ?_, ?_, ?_, ?_, ?_, ?_, ?_, ?_⟩
  · intro sqrtFn db commodity currentPrice state now month hdata
    rw [getSellAdvisory] at hdata ⊢
    by_cases hlt :
        (getPriceTrends sqrtFn db commodity state 30 now).data_points < 3
    · rw [if_pos hlt] at hdata
      exact absurd hdata Bool.false_ne_true
    · rw [if_neg hlt]
  · intro commodity currentPrice month td
    rfl
  · intro pct trend cls sp month cp cost
    rfl
  · intro pct
    refine ⟨?_, ?_, ?_, ?_, ?_⟩
    · intro h
      rw [priceAdjust, if_pos h]
    · intro h
      rw [priceAdjust, if_neg (by linarith [h.2]), if_pos h.1]
    · intro h
      rw [priceAdjust, if_neg (by linarith), if_neg (by linarith), if_pos h]
    · intro h
      rw [priceAdjust, if_neg (by linarith [h.2]),
        if_neg (by linarith [h.2]), if_neg (not_lt.2 h.1), if_pos h.2]
    · intro h
      rw [priceAdjust, if_neg (by linarith [h.2]),
        if_neg (by linarith [h.2]), if_neg (by linarith [h.1]),
        if_neg (by linarith [h.1])]
  · refine ⟨rfl, rfl, ?_⟩
    intro t h1 h2
    rw [trendAdjust, if_neg (by simp [h1]), if_neg (by simp [h2])]
  · refine ⟨rfl, rfl, ?_⟩
    intro c h1 h2
    rw [storageAdjust, if_neg (by simp [h1]), if_neg (by simp [h2])]
  · intro month
    rfl
  · intro p month
    refine ⟨?_, ?_, ?_⟩
    · intro hp
      rw [seasonAdjust]
      rw [if_pos hp]
    · intro hp hl
      rw [seasonAdjust]
      rw [if_neg (by rw [hp]; exact Bool.false_ne_true), if_pos hl]
    · intro hp hl
      rw [seasonAdjust]
      rw [if_neg (by rw [hp]; exact Bool.false_ne_true),
        if_neg (by rw [hl]; exact Bool.false_ne_true)]
  · intro sp cls month cp cost
    refine ⟨?_, ?_, ?_⟩
    · intro h0
      rw [econAdjust, if_neg (by rw [h0]; simp)]
    · intro hcls
      rw [econAdjust, if_neg (by rw [hcls]; simp)]
    · intro p hsp hpos hcls
      subst hsp
      have hrise : (expectedRiseOf (some p) : ℚ) = (p.expected_rise_pct : ℚ) :=
        rfl
      constructor
      · intro hgain
        have hc : 0 < (expectedRiseOf (some p) : ℚ) / 100 * cp -
            cost * (monthsToPeak (some p) month : ℚ) := by
          rw [hrise]; exact hgain
        rw [econAdjust, if_pos ⟨hpos, hcls⟩, if_pos hc]
      · intro hgain
        have hc : ¬ (0 < (expectedRiseOf (some p) : ℚ) / 100 * cp -
            cost * (monthsToPeak (some p) month : ℚ)) := by
          rw [hrise]; exact not_lt.2 hgain
        rw [econAdjust, if_pos ⟨hpos, hcls⟩, if_neg hc]
  · intro pp month
    exact monthsToPeak_bounds pp month
  · intro score
    refine ⟨?_, ?_, ?_, ?_, ?_⟩
    · intro h
      rw [recommendationFor, if_pos h]
    · intro h1 h2
      rw [recommendationFor, if_neg (by omega), if_pos h1]
    · intro h
      rw [recommendationFor, if_neg (by omega), if_neg (by omega), if_pos h]
    · intro h1 h2
      rw [recommendationFor, if_neg (by omega), if_neg (by omega),
        if_neg (by omega), if_pos h2]
    · intro h1 h2
      rw [recommendationFor, if_neg (by omega), if_neg (by omega),
        if_neg (by omega), if_neg (by omega)]

/-- C1 witness: a three-day wheat history yields an advisory whose
recommendation block is exactly the score-ladder output. -/
theorem sell_advisory_score_spec_witness :
    getSellAdvisory (fun x : ℚ => x)
        [⟨"w", "m", "s", "d", 300, 0, 0, 0, 1⟩,
         ⟨"w", "m", "s", "d", 301, 0, 0, 0, 2⟩,
         ⟨"w", "m", "s", "d", 302, 0, 0, 0, 3⟩] "w" none none 3 5 =
      sellAdvisoryMain "w" none 5
        (getPriceTrends (fun x : ℚ => x)
          [⟨"w", "m", "s", "d", 300, 0, 0, 0, 1⟩,
           ⟨"w", "m", "s", "d", 301, 0, 0, 0, 2⟩,
           ⟨"w", "m", "s", "d", 302, 0, 0, 0, 3⟩] "w" none 30 3) :=
  sell_advisory_score_spec.1 (fun x : ℚ => x)
    [⟨"w", "m", "s", "d", 300, 0, 0, 0, 1⟩,
     ⟨"w", "m", "s", "d", 301, 0, 0, 0, 2⟩,
     ⟨"w", "m", "s", "d", 302, 0, 0, 0, 3⟩] "w" none none 3 5 (by decide)

theorem headI_mem {β : Type} [Inhabited β] (l : List β) (h : l ≠ []) :
    l.headI ∈ l := by
  cases l with
  | nil => exact absurd rfl h
  | cons a t => exact List.mem_cons_self _ _

theorem headI_key_le {β γ : Type} [LinearOrder γ] [Inhabited β]
    (key : β → γ) (l : List β)
    (hsorted : l.Pairwise (fun x y => key x ≤ key y)) :
    ∀ x ∈ l, key l.headI ≤ key x := by
  cases l with
  | nil => intro x hx; simp at hx
  | cons a t =>
    intro x hx
    rcases List.mem_cons.1 hx with hxa | hxt
    · subst hxa; exact le_rfl
    · exact (List.pairwise_cons.1 hsorted).1 x hxt

theorem nextPeakWait_spec (p : SeasonalPattern) (month : Nat)
    (hne : p.peak_months ≠ []) :
    (∃ pm ∈ p.peak_months, nextPeakWait p month = monthDiff month pm) ∧
    ∀ pm ∈ p.peak_months, nextPeakWait p month ≤ monthDiff month pm := by
  have hLne : p.peak_months.map (fun pm => (pm, monthDiff month pm)) ≠ [] :=
    by
    intro hmap
    exact hne (List.map_eq_nil_iff.1 hmap)
  have hperm := sortAscBy_perm (fun x : Nat × Nat => x.2)
    (p.peak_months.map (fun pm => (pm, monthDiff month pm)))
  have hSne : sortAscBy (fun x : Nat × Nat => x.2)
      (p.peak_months.map (fun pm => (pm, monthDiff month pm))) ≠ [] := by
    intro hS
    apply hLne
    have := hperm.length_eq
    rw [hS] at this
    exact List.length_eq_zero.1 this.symm
  have hheadmem := hperm.mem_iff.1 (headI_mem _ hSne)
  rcases List.mem_map.1 hheadmem with ⟨pm, hpm, hpm2⟩
  constructor
  · refine ⟨pm, hpm, ?_⟩
    rw [nextPeakWait, ← hpm2]
  · intro pm2 hpm2mem
    have hmem2 : (pm2, monthDiff month pm2) ∈
        sortAscBy (fun x : Nat × Nat => x.2)
          (p.peak_months.map (fun pm => (pm, monthDiff month pm))) :=
      hperm.mem_iff.2 (List.mem_map.2 ⟨pm2, hpm2mem, rfl⟩)
    exact headI_key_le (fun x : Nat × Nat => x.2) _
      (sortAscBy_pairwise _ _) _ hmem2

/-- C8: for every advisory with data, the best-selling window is the first
matching rung of the ladder: perishable storage yields an Immediate window
(confidence 85) regardless of anything else; else a seasonal entry with the
current month in its peak months yields the now-through-peak window
(confidence 80); else with a seasonal entry the smallest wrap-around distance
to a peak month is taken, a semi-perishable class more than 3 months from the
peak is overridden to a 1-2 month window (confidence 70) and otherwise the
full peak range with `months_to_wait` and the expected rise is returned
(confidence 75); without a seasonal entry, a 5-long non-decreasing tail of
daily averages yields a 2-4 week wait (confidence 65), a non-increasing one
an Immediate window (confidence 70), and anything else the flexible window
(confidence 50). -/
theorem best_selling_window_spec :
    (∀ (sqrtFn : ℚ → ℚ) (db : List (MandiPrice ℚ)) (commodity : String)
        (currentPrice : Option ℚ) (state : Option String) (now : Int)
        (month : Nat),
      (getSellAdvisory sqrtFn db commodity currentPrice state now
          month).has_data = true →
      (getSellAdvisory sqrtFn db commodity currentPrice state now
          month).best_time_to_sell =
        some (calculateBestSellingWindow month (seasonalPatternOf commodity)
          (storageClassOf commodity)
          (getPriceTrends sqrtFn db commodity state 30 now).price_history)) ∧
    (∀ (month : Nat) (sp : Option SeasonalPattern) (cls : String)
        (history : List (DayEntry ℚ)),
      (cls = "perishable" →
        (calculateBestSellingWindow month sp cls history).window =
            "Immediate" ∧
        (calculateBestSellingWindow month sp cls history).confidence = 85 ∧
        (calculateBestSellingWindow month sp cls history).months_to_wait =
          0) ∧
      (∀ p : SeasonalPattern, cls ≠ "perishable" → sp = some p →
        p.peak_months.contains month = true →
        (calculateBestSellingWindow month sp cls history).window =
            "Now - Peak Season" ∧
        (calculateBestSellingWindow month sp cls history).confidence = 80 ∧
        (calculateBestSellingWindow month sp cls history).end_month =
          monthName (p.peak_months.getLastD 0)) ∧
      (∀ p : SeasonalPattern, cls ≠ "perishable" → sp = some p →
        p.peak_months.contains month = false → p.peak_months ≠ [] →
        ((cls = "semi_perishable" ∧ 3 < nextPeakWait p month →
          (calculateBestSellingWindow month sp cls history).window =
              "Within 1-2 months" ∧
          (calculateBestSellingWindow month sp cls history).confidence =
            70) ∧
         (¬(cls = "semi_perishable" ∧ 3 < nextPeakWait p month) →
          (calculateBestSellingWindow month sp cls history).months_to_wait =
              nextPeakWait p month ∧
          (calculateBestSellingWindow month sp cls
              history).expected_price_rise_pct = some p.expected_rise_pct ∧
          (calculateBestSellingWindow month sp cls history).confidence = 75 ∧
          (calculateBestSellingWindow month sp cls history).window =
            monthName (p.peak_months.headD 0) ++ " - " ++
              monthName (p.peak_months.getLastD 0)))) ∧
      (cls ≠ "perishable" → sp = none →
        ((5 ≤ history.length →
          chainNonDecr ((history.drop (history.length - 5)).map
            (·.avg_price)) = true →
          (calculateBestSellingWindow month sp cls history).window =
              "Wait 2-4 weeks" ∧
          (calculateBestSellingWindow month sp cls history).confidence =
            65) ∧
         (5 ≤ history.length →
          chainNonDecr ((history.drop (history.length - 5)).map
            (·.avg_price)) = false →
          chainNonIncr ((history.drop (history.length - 5)).map
            (·.avg_price)) = true →
          (calculateBestSellingWindow month sp cls history).window =
              "Immediate" ∧
          (calculateBestSellingWindow month sp cls history).confidence =
            70) ∧
         (5 ≤ history.length →
          chainNonDecr ((history.drop (history.length - 5)).map
            (·.avg_price)) = false →
          chainNonIncr ((history.drop (history.length - 5)).map
            (·.avg_price)) = false →
          (calculateBestSellingWindow month sp cls history).window =
              "Flexible" ∧
          (calculateBestSellingWindow month sp cls history).confidence =
            50) ∧
         (history.length < 5 →
          (calculateBestSellingWindow month sp cls history).window =
              "Flexible" ∧
          (calculateBestSellingWindow month sp cls history).confidence =
            50)))) ∧
    (∀ (p : SeasonalPattern) (month : Nat), p.peak_months ≠ [] →
      (∃ pm ∈ p.peak_months, nextPeakWait p month = monthDiff month pm) ∧
      ∀ pm ∈ p.peak_months, nextPeakWait p month ≤ monthDiff month pm) ∧
    (∀ (c : String) (p : SeasonalPattern), seasonalPatternOf c = some p →
      p.peak_months ≠ []) := by
  refine ⟨?_, ?_, ?_, ?_⟩
  · intro sqrtFn db commodity currentPrice state now month hdata
    rw [getSellAdvisory] at hdata ⊢
    by_cases hlt :
        (getPriceTrends sqrtFn db commodity state 30 now).data_points < 3
    · rw [if_pos hlt] at hdata
      exact absurd hdata Bool.false_ne_true
    · rw [if_neg hlt]
      rfl
  · intro month sp cls history
    refine ⟨?_, ?_, ?_, ?_⟩
    · intro hcls
      subst hcls
      rw [calculateBestSellingWindow.eq_def, if_pos (by decide)]
      exact ⟨rfl, rfl, rfl⟩
    · intro p hcls hsp hpeak
      subst hsp
      rw [calculateBestSellingWindow_some, if_neg (by simp [hcls]),
        seasonalWindow, if_pos hpeak]
      exact ⟨rfl, rfl, rfl⟩
    · intro p hcls hsp hpeak hne
      subst hsp
      have hmapne :
          ¬((p.peak_months.map (fun pm => (pm, monthDiff month pm))).isEmpty
            = true) := by
        intro hmape
        exact hne (List.map_eq_nil_iff.1 (List.isEmpty_iff.1 hmape))
      constructor
      · intro hsemi
        rw [calculateBestSellingWindow_some, if_neg (by simp [hcls]),
          seasonalWindow, if_neg (by rw [hpeak]; exact Bool.false_ne_true),
          if_neg hmapne, if_pos (by
            constructor
            · simp [hsemi.1]
            · exact hsemi.2)]
        exact ⟨rfl, rfl⟩
      · intro hsemi
        rw [calculateBestSellingWindow_some, if_neg (by simp [hcls]),
          seasonalWindow, if_neg (by rw [hpeak]; exact Bool.false_ne_true),
          if_neg hmapne, if_neg (by
            intro hcon
            apply hsemi
            constructor
            · have := hcon.1
              simpa using this
            · exact hcon.2)]
        exact ⟨rfl, rfl, rfl, rfl⟩
    · intro hcls hsp
      subst hsp
      rw [calculateBestSellingWindow_none, if_neg (by simp [hcls])]
      refine ⟨?_, ?_, ?_, ?_⟩
      · intro hlen hchain
        rw [windowFromHistory, if_pos hlen, if_pos hchain]
        exact ⟨rfl, rfl⟩
      · intro hlen hchain1 hchain2
        rw [windowFromHistory, if_pos hlen,
          if_neg (by rw [hchain1]; exact Bool.false_ne_true),
          if_pos hchain2]
        exact ⟨rfl, rfl⟩
      · intro hlen hchain1 hchain2
        rw [windowFromHistory, if_pos hlen,
          if_neg (by rw [hchain1]; exact Bool.false_ne_true),
          if_neg (by rw [hchain2]; exact Bool.false_ne_true)]
        exact ⟨rfl, rfl⟩
      · intro hlen
        rw [windowFromHistory, if_neg (not_le.2 hlen)]
        exact ⟨rfl, rfl⟩
  · intro p month hne
    exact nextPeakWait_spec p month hne
  · intro c p hc
    exact seasonalPatternOf_peak_ne_nil c p hc

/-- C8 witness: a perishable commodity (Tomato) always gets the Immediate
window with confidence 85. -/
theorem best_selling_window_spec_witness :
    (calculateBestSellingWindow 3 (seasonalPatternOf "Tomato")
        (storageClassOf "Tomato") ([] : List (DayEntry ℚ))).window =
      "Immediate" ∧
    (calculateBestSellingWindow 3 (seasonalPatternOf "Tomato")
        (storageClassOf "Tomato") ([] : List (DayEntry ℚ))).confidence =
      85 := by
  have h := (best_selling_window_spec.2.1 3 (seasonalPatternOf "Tomato")
    (storageClassOf "Tomato") ([] : List (DayEntry ℚ))).1 (by decide)
  exact ⟨h.1, h.2.1⟩

theorem headI_key_ge {β γ : Type} [LinearOrder γ] [Inhabited β]
    (key : β → γ) (l : List β)
    (hsorted : l.Pairwise (fun x y => key y ≤ key x)) :
    ∀ x ∈ l, key x ≤ key l.headI := by
  cases l with
  | nil => intro x hx; simp at hx
  | cons a t =>
    intro x hx
    rcases List.mem_cons.1 hx with hxa | hxt
    · subst hxa; exact le_rfl
    · exact (List.pairwise_cons.1 hsorted).1 x hxt

theorem compareNames_mem {db : List (MandiPrice ℚ)} {commodity : String}
    {mandiNames : Option (List String)} {state : Option String} {nm : String}
    (h : nm ∈ compareNames db commodity mandiNames state) :
    ∃ r ∈ db, matchesCommodity commodity r = true ∧ r.mandi_name = nm := by
  have reduce : ∀ l : List (MandiPrice ℚ),
      (∀ r ∈ l, r ∈ db ∧ matchesCommodity commodity r = true) →
      nm ∈ dedupFirst (l.map (·.mandi_name)) →
      ∃ r ∈ db, matchesCommodity commodity r = true ∧ r.mandi_name = nm := by
    intro l hl hmem
    have := (mem_dedupFirst _ _).1 hmem
    rcases List.mem_map.1 this with ⟨r, hr, hrn⟩
    rcases hl r hr with ⟨hrdb, hrc⟩
    exact ⟨r, hrdb, hrc, hrn⟩
  have hbase : ∀ r ∈ db.filter
      (fun r => matchesCommodity commodity r && matchesState state r),
      r ∈ db ∧ matchesCommodity commodity r = true := by
    intro r hr
    have h1 := List.mem_of_mem_filter hr
    have h2 := List.of_mem_filter hr
    rw [Bool.and_eq_true] at h2
    exact ⟨h1, h2.1⟩
  rcases mandiNames with _ | ns
  · rw [compareNames] at h
    exact reduce _ hbase h
  · rw [compareNames] at h
    by_cases hns : ns.isEmpty
    · rw [if_pos hns] at h
      exact reduce _ hbase h
    · rw [if_neg hns] at h
      refine reduce _ ?_ h
      intro r hr
      exact hbase r (List.mem_of_mem_filter hr)

theorem latestFor_spec {db : List (MandiPrice ℚ)} {commodity nm : String}
    {rl : MandiPrice ℚ} (h : latestFor db commodity nm = some rl) :
    rl ∈ db ∧ matchesCommodity commodity rl = true ∧ rl.mandi_name = nm ∧
      ∀ r2 ∈ db, matchesCommodity commodity r2 = true →
        r2.mandi_name = nm → r2.arrival_date ≤ rl.arrival_date := by
  rw [latestFor] at h
  have hne : db.filter
      (fun r => matchesCommodity commodity r && r.mandi_name == nm) ≠ [] := by
    intro hnil
    rw [hnil] at h
    exact Option.noConfusion h
  rcases pickLatest_spec _ hne with ⟨r, hr, hrmem, hrmax⟩
  rw [hr] at h
  have hrl : r = rl := Option.some.inj h
  subst hrl
  have h1 := List.mem_of_mem_filter hrmem
  have h2 := List.of_mem_filter hrmem
  rw [Bool.and_eq_true] at h2
  refine ⟨h1, h2.1, by simpa using h2.2, ?_⟩
  intro r2 hr2 hr2c hr2n
  exact hrmax r2 (List.mem_filter.2 ⟨hr2,
    by rw [Bool.and_eq_true]; exact ⟨hr2c, by simpa using hr2n⟩⟩)

theorem latestFor_isSome {db : List (MandiPrice ℚ)} {commodity nm : String}
    {r : MandiPrice ℚ} (hr : r ∈ db)
    (hc : matchesCommodity commodity r = true) (hn : r.mandi_name = nm) :
    ∃ rl, latestFor db commodity nm = some rl := by
  rw [latestFor]
  have hne : db.filter
      (fun x => matchesCommodity commodity x && x.mandi_name == nm) ≠ [] := by
    intro hnil
    have : r ∈ db.filter
        (fun x => matchesCommodity commodity x && x.mandi_name == nm) :=
      List.mem_filter.2 ⟨hr,
        by rw [Bool.and_eq_true]; exact ⟨hc, by simpa using hn⟩⟩
    rw [hnil] at this
    simp at this
  rcases pickLatest_spec _ hne with ⟨rl, hrl, _, _⟩
  exact ⟨rl, hrl⟩

theorem compareEntries_map_names (db : List (MandiPrice ℚ))
    (commodity : String) :
    ∀ (l : List String),
      (∀ nm ∈ l, ∃ r ∈ db, matchesCommodity commodity r = true ∧
          r.mandi_name = nm) →
      (l.filterMap
          (fun nm => (latestFor db commodity nm).map toEntry)).map
        (·.mandi_name) = l := by
  intro l
  induction l with
  | nil => intro _; rfl
  | cons nm t ih =>
    intro hall
    rcases hall nm (List.mem_cons_self _ _) with ⟨r, hr, hc, hn⟩
    rcases latestFor_isSome hr hc hn with ⟨rl, hrl⟩
    have hname : rl.mandi_name = nm := (latestFor_spec hrl).2.2.1
    rw [List.filterMap_cons, hrl]
    simp only [Option.map_some']
    rw [List.map_cons]
    rw [ih (fun x hx => hall x (List.mem_cons_of_mem _ hx))]
    rw [show (toEntry rl).mandi_name = nm from hname]

theorem compareNames_nil {db : List (MandiPrice ℚ)} {commodity : String}
    {mandiNames : Option (List String)} {state : Option String}
    (h : db.filter
      (fun r => matchesCommodity commodity r && matchesState state r) = []) :
    compareNames db commodity mandiNames state = [] := by
  rcases mandiNames with _ | ns
  · rw [compareNames, h]
    simp [dedupFirst]
  · rw [compareNames, h]
    by_cases hns : ns.isEmpty
    · rw [if_pos hns]
      simp [dedupFirst]
    · rw [if_neg hns]
      simp [dedupFirst]

theorem compareNames_nodup (db : List (MandiPrice ℚ)) (commodity : String)
    (mandiNames : Option (List String)) (state : Option String) :
    (compareNames db commodity mandiNames state).Nodup := by
  rcases mandiNames with _ | ns
  · rw [compareNames]
    exact dedupFirst_nodup _
  · rw [compareNames]
    by_cases hns : ns.isEmpty
    · rw [if_pos hns]
      exact dedupFirst_nodup _
    · rw [if_neg hns]
      exact dedupFirst_nodup _

/-- C3 (amended): the cross-market comparison yields one entry per distinct
matching market, each carrying a commodity observation of that market with
maximal arrival date; entries are sorted descending by latest price with the
stable filtered order on ties, so the first entry's price bounds all others;
the analytics block carries the 2-decimal-rounded mean of the latest prices,
the price range, the spread (best minus worst, 2-decimal), the
**2-decimal-rounded** spread percentage (`0` when the worst price is not
positive), the best/worst market names from the first/last entries, and the
full statistics of the latest-price sample; with zero matching markets the
market list is empty and the analytics block is null; the function is a pure
function of its inputs, so two identical calls agree. -/
theorem compare_prices_spec :
    ∀ (sqrtFn : ℚ → ℚ) (db : List (MandiPrice ℚ)) (commodity : String)
      (mandiNames : Option (List String)) (state : Option String)
      (res : CompareResult ℚ),
      res = comparePrices sqrtFn db commodity mandiNames state →
      (comparePrices sqrtFn db commodity mandiNames state =
        comparePrices sqrtFn db commodity mandiNames state) ∧
      res.apmcs.Pairwise (fun x y => y.latest_price ≤ x.latest_price) ∧
      (∀ e ∈ res.apmcs, e.latest_price ≤ res.apmcs.headI.latest_price) ∧
      ((res.apmcs.map (·.mandi_name)).Perm
        (compareNames db commodity mandiNames state)) ∧
      (compareNames db commodity mandiNames state).Nodup ∧
      (∀ e ∈ res.apmcs, ∃ r ∈ db, matchesCommodity commodity r = true ∧
        r.mandi_name = e.mandi_name ∧ e = toEntry r ∧
        ∀ r2 ∈ db, matchesCommodity commodity r2 = true →
          r2.mandi_name = e.mandi_name → r2.arrival_date ≤ r.arrival_date) ∧
      (∀ q : ℚ, res.apmcs.filter (fun e => e.latest_price = q) =
        ((compareNames db commodity mandiNames state).filterMap
          (fun nm => (latestFor db commodity nm).map toEntry)).filter
            (fun e => e.latest_price = q)) ∧
      (db.filter (fun r => matchesCommodity commodity r &&
          matchesState state r) = [] →
        res.apmcs = [] ∧ res.analytics = none) ∧
      (res.apmcs = [] → res.analytics = none) ∧
      (∀ a, res.analytics = some a →
        res.apmcs ≠ [] ∧
        a.average_price = round2 ((res.apmcs.map (·.latest_price)).sum /
          (((res.apmcs.map (·.latest_price)).length : Nat) : ℚ)) ∧
        a.price_range_min = listMin (res.apmcs.map (·.latest_price)) ∧
        a.price_range_max = listMax (res.apmcs.map (·.latest_price)) ∧
        a.price_spread = round2 (res.apmcs.headI.latest_price -
          res.apmcs.getLastI.latest_price) ∧
        a.price_spread_percent =
          (if 0 < res.apmcs.getLastI.latest_price then
            round2 (a.price_spread / res.apmcs.getLastI.latest_price * 100)
          else 0) ∧
        a.best_apmc = res.apmcs.headI.mandi_name ∧
        a.worst_apmc = res.apmcs.getLastI.mandi_name ∧
        a.statistics = calculateStatistics sqrtFn
          (res.apmcs.map (·.latest_price))) := by
  intro sqrtFn db commodity mandiNames state res hres
  have hnamesmem : ∀ nm ∈ compareNames db commodity mandiNames state,
      ∃ r ∈ db, matchesCommodity commodity r = true ∧ r.mandi_name = nm :=
    fun nm h => compareNames_mem h
  have hmapnames := compareEntries_map_names db commodity
    (compareNames db commodity mandiNames state) hnamesmem
  subst hres
  rw [comparePrices]
  by_cases hemp : (((compareNames db commodity mandiNames state).filterMap
      (fun nm => (latestFor db commodity nm).map toEntry)).isEmpty = true)
  · have hEnil : (compareNames db commodity mandiNames state).filterMap
        (fun nm => (latestFor db commodity nm).map toEntry) = [] :=
      List.isEmpty_iff.1 hemp
    have hnamesnil : compareNames db commodity mandiNames state = [] := by
      rw [← hmapnames, hEnil]
      rfl
    rw [if_pos hemp]
    refine ⟨rfl, ?_, ?_, ?_, compareNames_nodup db commodity mandiNames
      state, ?_, ?_, ?_, ?_, ?_⟩
    · simp
    · simp
    · rw [hnamesnil]
      exact List.Perm.nil
    · simp
    · intro q
      rw [hEnil]
    · intro hb
      exact ⟨rfl, rfl⟩
    · intro hb
      rfl
    · intro a ha
      exact absurd ha (by simp)
  · have hEne : (compareNames db commodity mandiNames state).filterMap
        (fun nm => (latestFor db commodity nm).map toEntry) ≠ [] := by
      intro hnil
      rw [hnil] at hemp
      exact hemp rfl
    have hperm := sortDescBy_perm
      (fun e : CompareEntry ℚ => e.latest_price)
      ((compareNames db commodity mandiNames state).filterMap
        (fun nm => (latestFor db commodity nm).map toEntry))
    have hSne : sortDescBy (fun e : CompareEntry ℚ => e.latest_price)
        ((compareNames db commodity mandiNames state).filterMap
          (fun nm => (latestFor db commodity nm).map toEntry)) ≠ [] := by
      intro hS
      apply hEne
      have := hperm.length_eq
      rw [hS] at this
      exact List.length_eq_zero.1 this.symm
    rw [if_neg hemp]
    refine ⟨rfl, sortDescBy_pairwise _ _, ?_, ?_,
      compareNames_nodup db commodity mandiNames state, ?_, ?_, ?_, ?_, ?_⟩
    · exact headI_key_ge (fun e : CompareEntry ℚ => e.latest_price) _
        (sortDescBy_pairwise _ _)
    · exact (hperm.map (·.mandi_name)).trans (by rw [hmapnames])
    · intro e he
      have hmem := hperm.mem_iff.1 he
      rcases List.mem_filterMap.1 hmem with ⟨nm, hnm, hsome⟩
      rcases Option.map_eq_some'.1 hsome with ⟨rl, hrl, hre⟩
      rcases latestFor_spec hrl with ⟨hrldb, hrlc, hrln, hrlmax⟩
      have hename : e.mandi_name = nm := by
        rw [← hre]
        exact hrln
      refine ⟨rl, hrldb, hrlc, by rw [hrln, hename], hre.symm, ?_⟩
      intro r2 hr2 hr2c hr2n
      exact hrlmax r2 hr2 hr2c (by rw [hr2n, hename])
    · intro q
      exact sortDescBy_filter_key _ _ q
    · intro hbase
      exfalso
      apply hEne
      rw [compareNames_nil hbase]
      rfl
    · intro hnil
      exact absurd hnil hSne
    · intro a ha
      have ha2 := Option.some.inj ha
      subst ha2
      exact ⟨hSne, rfl, rfl, rfl, rfl, rfl, rfl, rfl, rfl⟩

/-- C3 witness: the amended statement on a two-market database in which the
two markets end up sorted best-first. -/
theorem compare_prices_spec_witness :
    ((comparePrices (fun x : ℚ => x)
        [⟨"w", "a", "s", "d", 400, 0, 0, 0, 1⟩,
         ⟨"w", "b", "s", "d", 300, 0, 0, 0, 1⟩] "w" none none).apmcs.map
      (·.mandi_name)).Perm (compareNames
        [⟨"w", "a", "s", "d", 400, 0, 0, 0, 1⟩,
         ⟨"w", "b", "s", "d", 300, 0, 0, 0, 1⟩] "w" none none) :=
  (compare_prices_spec (fun x : ℚ => x)
    [⟨"w", "a", "s", "d", 400, 0, 0, 0, 1⟩,
     ⟨"w", "b", "s", "d", 300, 0, 0, 0, 1⟩] "w" none none _
    rfl).2.2.2.1

/-- C3 counterexample: `price_spread_percent` is stored 2-decimal-rounded:
with latest prices 400 (best) and 300 (worst) the code stores `33.33`,
whereas `spread / worst * 100 = 100 / 3`. -/
theorem compare_spread_percent_rounding_counterexample :
    ((comparePrices (fun x : ℚ => x)
        [⟨"w", "a", "s", "d", 400, 0, 0, 0, 1⟩,
         ⟨"w", "b", "s", "d", 300, 0, 0, 0, 1⟩] "w" none none).analytics).map
      (·.price_spread_percent) = some ((3333 : ℚ) / 100) ∧
    ((3333 : ℚ) / 100) ≠ ((400 : ℚ) - 300) / 300 * 100 := by
  constructor
  · have h1 : comparePrices (fun x : ℚ => x)
        [⟨"w", "a", "s", "d", 400, 0, 0, 0, 1⟩,
         ⟨"w", "b", "s", "d", 300, 0, 0, 0, 1⟩] "w" none none =
        ⟨"w", 2,
         [⟨"a", "s", "d", 400, 0, 0, 0, 1⟩, ⟨"b", "s", "d", 300, 0, 0, 0, 1⟩],
         some (buildComparisonAnalytics (fun x : ℚ => x) [400, 300]
           [⟨"a", "s", "d", 400, 0, 0, 0, 1⟩,
            ⟨"b", "s", "d", 300, 0, 0, 0, 1⟩])⟩ := by
      rfl
    rw [h1]
    show some ((buildComparisonAnalytics (fun x : ℚ => x) [400, 300]
      [⟨"a", "s", "d", 400, 0, 0, 0, 1⟩,
       ⟨"b", "s", "d", 300, 0, 0, 0, 1⟩]).price_spread_percent) =
      some ((3333 : ℚ) / 100)
    exact congrArg some (by
      rw [buildComparisonAnalytics]
      norm_num [List.headI, List.getLastI, round2, round_eq])
  · norm_num

/- ----------------------------------------------------------------------
C5: ranking of `find_best_apmc` recommendations.
---------------------------------------------------------------------- -/

theorem rankMap_map_rank (l : List (Recommendation α)) :
    ((l.enum.map (fun p => { p.2 with rank := p.1 + 1 })).map (·.rank)) =
      (List.range l.length).map (· + 1) := by
  rw [List.map_map]
  have hc : ((fun r : Recommendation α => r.rank) ∘
      (fun p : Nat × Recommendation α => { p.2 with rank := p.1 + 1 })) =
      (fun n => n + 1) ∘ Prod.fst := rfl
  rw [hc, ← List.map_map, List.enum_map_fst]

theorem rankMap_map_net (l : List (Recommendation α)) :
    ((l.enum.map (fun p => { p.2 with rank := p.1 + 1 })).map
      (·.net_price_per_quintal)) = l.map (·.net_price_per_quintal) := by
  rw [List.map_map]
  have hc : ((fun r : Recommendation α => r.net_price_per_quintal) ∘
      (fun p : Nat × Recommendation α => { p.2 with rank := p.1 + 1 })) =
      (fun r : Recommendation α => r.net_price_per_quintal) ∘ Prod.snd := rfl
  rw [hc, ← List.map_map, List.enum_map_snd]

theorem mem_rankMap {l : List (Recommendation α)} {r : Recommendation α}
    (hr : r ∈ l.enum.map (fun p => { p.2 with rank := p.1 + 1 })) :
    ∃ r0 ∈ l, r.net_price_per_quintal = r0.net_price_per_quintal ∧
      r.transport_cost_per_quintal = r0.transport_cost_per_quintal ∧
      r.distance_km = r0.distance_km ∧
      r.latest_price = r0.latest_price ∧
      r.mandi_name = r0.mandi_name := by
  rcases List.mem_map.1 hr with ⟨p, hp, hpe⟩
  subst hpe
  have hmem : p.2 ∈ l.enum.map Prod.snd := List.mem_map_of_mem Prod.snd hp
  rw [List.enum_map_snd] at hmem
  exact ⟨p.2, hmem, rfl, rfl, rfl, rfl, rfl⟩

/-- `round(round(x, 1) * 2.5, 2)` is exact: a one-decimal value times `5/2`
is a two-decimal value. -/
theorem round2_round1_mul (x : α) :
    round2 (round1 x * (5 / 2)) = round1 x * (5 / 2) := by
  apply round2_intMul (25 * round (x * 10))
  rw [round1]
  push_cast
  ring

/-- Field-level description of any recommendation produced by the per-mandi
loop body of `find_best_apmc`. -/
theorem bestRecFor_fields {hav : α → α → α → α → α} {db : List (MandiPrice α)}
    {commodity : String} {user : Option (α × α)} {maxDist : α} {nm : String}
    {r : Recommendation α}
    (h : bestRecFor hav db commodity user maxDist nm = some r) :
    r.net_price_per_quintal =
      round2 (r.latest_price - r.transport_cost_per_quintal) ∧
    (∀ d, r.distance_km = some d →
      r.transport_cost_per_quintal = d * (5 / 2) ∧ d ≤ maxDist) ∧
    (r.distance_km = none → r.transport_cost_per_quintal = 0) ∧
    (user = none → r.distance_km = none) := by
  rcases hlf : latestFor db commodity nm with _ | latest
  · simp only [bestRecFor, hlf] at h
    exact Option.noConfusion h
  · rcases user with _ | u
    · simp only [bestRecFor, hlf] at h
      have hre : mkRecommendation latest none (0 : α) = r := Option.some.inj h
      subst hre
      refine ⟨rfl, ?_, fun _ => rfl, fun _ => rfl⟩
      intro d hd
      exact absurd hd (by simp [mkRecommendation])
    · rcases hco : lookupCoord nm with _ | c
      · simp only [bestRecFor, hlf, hco] at h
        exact Option.noConfusion h
      · simp only [bestRecFor, hlf, hco] at h
        by_cases hlt : maxDist <
            round1 (hav u.1 u.2 ((c.1 : α)) ((c.2 : α)))
        · rw [if_pos hlt] at h
          exact Option.noConfusion h
        · rw [if_neg hlt] at h
          have hre : mkRecommendation latest
              (some (round1 (hav u.1 u.2 ((c.1 : α)) ((c.2 : α)))))
              (round2 (round1 (hav u.1 u.2 ((c.1 : α)) ((c.2 : α))) *
                (5 / 2))) = r := Option.some.inj h
          subst hre
          refine ⟨rfl, ?_, ?_, ?_⟩
          · intro d hd
            have hde : round1 (hav u.1 u.2 ((c.1 : α)) ((c.2 : α))) = d :=
              Option.some.inj hd
            constructor
            · show round2 (round1 (hav u.1 u.2 ((c.1 : α)) ((c.2 : α))) *
                (5 / 2)) = d * (5 / 2)
              rw [round2_round1_mul, hde]
            · rw [← hde]
              exact not_lt.1 hlt
          · intro hd
            exact absurd hd (by simp [mkRecommendation])
          · intro hu
            exact Option.noConfusion hu

/-- C5: every `find_best_apmc` result assigns ranks `1..N` in list order,
its recommendation list is sorted descending by `net_price_per_quintal`,
each entry satisfies `net = round(latest_price - transport, 2)` with
`transport = distance_km * 2.5` when a distance is present and
`transport = 0` when it is absent, `total_apmcs` is the number of
recommendations, and with no user location every entry has no distance,
zero transport, and `net = round(latest_price, 2)` (the 2-decimal-rounded
raw price, not the raw price itself). -/
theorem find_best_ranking_spec (hav : α → α → α → α → α)
    (db : List (MandiPrice α)) (commodity : String) (user : Option (α × α))
    (maxDist : α) (state : Option String) (res : BestApmcResult α)
    (h : findBestApmc hav db commodity user maxDist state = res) :
    res.recommendations.map (·.rank) =
      (List.range res.recommendations.length).map (· + 1) ∧
    (res.recommendations.map (·.net_price_per_quintal)).Pairwise
      (fun a b => b ≤ a) ∧
    (∀ r ∈ res.recommendations,
      r.net_price_per_quintal =
        round2 (r.latest_price - r.transport_cost_per_quintal) ∧
      (∀ d, r.distance_km = some d →
        r.transport_cost_per_quintal = d * (5 / 2)) ∧
      (r.distance_km = none → r.transport_cost_per_quintal = 0)) ∧
    (user = none → ∀ r ∈ res.recommendations,
      r.distance_km = none ∧ r.transport_cost_per_quintal = 0 ∧
      r.net_price_per_quintal = round2 r.latest_price) ∧
    res.total_apmcs = res.recommendations.length := by
  subst h
  have hrec : (findBestApmc hav db commodity user maxDist
      state).recommendations =
      (sortDescBy (fun r : Recommendation α => r.net_price_per_quintal)
        ((dedupFirst ((db.filter (fun r =>
            matchesCommodity commodity r && matchesState state r)).map
          (·.mandi_name))).filterMap
          (bestRecFor hav db commodity user maxDist))).enum.map
        (fun p => { p.2 with rank := p.1 + 1 }) := rfl
  have htot : (findBestApmc hav db commodity user maxDist
      state).total_apmcs =
      (findBestApmc hav db commodity user maxDist
        state).recommendations.length := rfl
  have hmem0 : ∀ r ∈ (findBestApmc hav db commodity user maxDist
      state).recommendations, ∃ r0, ∃ nm,
      bestRecFor hav db commodity user maxDist nm = some r0 ∧
      r.net_price_per_quintal = r0.net_price_per_quintal ∧
      r.transport_cost_per_quintal = r0.transport_cost_per_quintal ∧
      r.distance_km = r0.distance_km ∧
      r.latest_price = r0.latest_price ∧
      r.mandi_name = r0.mandi_name := by
    intro r hr
    rw [hrec] at hr
    rcases mem_rankMap hr with ⟨r0, hr0, hf⟩
    have hr0m := (sortDescBy_perm _ _).mem_iff.1 hr0
    rcases List.mem_filterMap.1 hr0m with ⟨nm, _, hnm⟩
    exact ⟨r0, nm, hnm, hf⟩
  refine ⟨?_, ?_, ?_, ?_, htot⟩
  · rw [hrec, rankMap_map_rank, List.length_map, List.enum_length]
  · rw [hrec, rankMap_map_net]
    exact List.pairwise_map.2 (sortDescBy_pairwise _ _)
  · intro r hr
    rcases hmem0 r hr with ⟨r0, nm, hnm, hnet, htr, hdist, hlat, _⟩
    rcases bestRecFor_fields hnm with ⟨h1, h2, h3, _⟩
    refine ⟨?_, ?_, ?_⟩
    · rw [hnet, hlat, htr, h1]
    · intro d hd
      have hd0 : r0.distance_km = some d := by
        rw [← hdist]
        exact hd
      rw [htr]
      exact (h2 d hd0).1
    · intro hd
      have hd0 : r0.distance_km = none := by
        rw [← hdist]
        exact hd
      rw [htr]
      exact h3 hd0
  · intro hu r hr
    subst hu
    rcases hmem0 r hr with ⟨r0, nm, hnm, hnet, htr, hdist, hlat, _⟩
    rcases bestRecFor_fields hnm with ⟨h1, _, h3, h4⟩
    have hd0 : r0.distance_km = none := h4 rfl
    refine ⟨?_, ?_, ?_⟩
    · rw [hdist]
      exact hd0
    · rw [htr]
      exact h3 hd0
    · rw [hnet, hlat, h1, h3 hd0, sub_zero]

/-- C5 witness: the ranking statement applied to a one-market database with
no user location. -/
theorem find_best_ranking_spec_witness :
    ((findBestApmc (fun _ _ _ _ => (0 : ℚ))
        [⟨"w", "a", "s", "d", 100, 0, 0, 0, 1⟩]
        "w" none 0 none).recommendations.map (·.rank)) =
      (List.range (findBestApmc (fun _ _ _ _ => (0 : ℚ))
        [⟨"w", "a", "s", "d", 100, 0, 0, 0, 1⟩]
        "w" none 0 none).recommendations.length).map (· + 1) :=
  (find_best_ranking_spec (fun _ _ _ _ => (0 : ℚ))
    [⟨"w", "a", "s", "d", 100, 0, 0, 0, 1⟩] "w" none 0 none _ rfl).1

/-- C5 counterexample: with no user location the net price is the
2-decimal-rounded raw price, so the final order can disagree with
descending raw-price order: raw prices `100.001` and `100.004` both round
to `100`, the stable sort keeps insertion order, and the first-ranked
market has the strictly lower raw price. -/
theorem find_best_raw_price_order_counterexample :
    ((findBestApmc (fun _ _ _ _ => (0 : ℚ))
        [⟨"w", "a", "s", "d", 100001 / 1000, 0, 0, 0, 1⟩,
         ⟨"w", "b", "s", "d", 100004 / 1000, 0, 0, 0, 1⟩]
        "w" none 0 none).recommendations.map (·.latest_price)) =
      [(100001 : ℚ) / 1000, 100004 / 1000] ∧
    ¬ ((100004 : ℚ) / 1000 ≤ (100001 : ℚ) / 1000) := by
  have hA : (mkRecommendation
      (⟨"w", "a", "s", "d", 100001 / 1000, 0, 0, 0, 1⟩ : MandiPrice ℚ)
      none 0).net_price_per_quintal = 100 := by
    norm_num [mkRecommendation, round2, round_eq]
  have hB : (mkRecommendation
      (⟨"w", "b", "s", "d", 100004 / 1000, 0, 0, 0, 1⟩ : MandiPrice ℚ)
      none 0).net_price_per_quintal = 100 := by
    norm_num [mkRecommendation, round2, round_eq]
  constructor
  · have h1 : (findBestApmc (fun _ _ _ _ => (0 : ℚ))
        [⟨"w", "a", "s", "d", 100001 / 1000, 0, 0, 0, 1⟩,
         ⟨"w", "b", "s", "d", 100004 / 1000, 0, 0, 0, 1⟩]
        "w" none 0 none).recommendations =
        (sortDescBy (fun r : Recommendation ℚ => r.net_price_per_quintal)
          [mkRecommendation
            (⟨"w", "a", "s", "d", 100001 / 1000, 0, 0, 0, 1⟩ : MandiPrice ℚ)
            none 0,
           mkRecommendation
            (⟨"w", "b", "s", "d", 100004 / 1000, 0, 0, 0, 1⟩ : MandiPrice ℚ)
            none 0]).enum.map
          (fun p => { p.2 with rank := p.1 + 1 }) := rfl
    have hsort : sortDescBy
        (fun r : Recommendation ℚ => r.net_price_per_quintal)
        [mkRecommendation
          (⟨"w", "a", "s", "d", 100001 / 1000, 0, 0, 0, 1⟩ : MandiPrice ℚ)
          none 0,
         mkRecommendation
          (⟨"w", "b", "s", "d", 100004 / 1000, 0, 0, 0, 1⟩ : MandiPrice ℚ)
          none 0] =
        [mkRecommendation
          (⟨"w", "a", "s", "d", 100001 / 1000, 0, 0, 0, 1⟩ : MandiPrice ℚ)
          none 0,
         mkRecommendation
          (⟨"w", "b", "s", "d", 100004 / 1000, 0, 0, 0, 1⟩ : MandiPrice ℚ)
          none 0] := by
      simp only [sortDescBy, insertDescBy]
      rw [if_pos (le_of_eq (hB.trans hA.symm))]
    rw [h1, hsort]
    rfl
  · norm_num

/- ----------------------------------------------------------------------
C4: distance-based exclusion in `find_best_apmc`.
---------------------------------------------------------------------- -/

theorem latestFor_name {db : List (MandiPrice α)} {c nm : String}
    {r : MandiPrice α} (h : latestFor db c nm = some r) :
    r.mandi_name = nm := by
  rw [latestFor] at h
  rcases hl : db.filter (fun x => matchesCommodity c x && x.mandi_name == nm)
    with _ | ⟨a, t⟩
  · rw [hl] at h
    rw [(pickLatest_eq_none ([] : List (MandiPrice α))).2 rfl] at h
    exact Option.noConfusion h
  · rw [hl] at h
    rcases pickLatest_spec (a :: t) (by simp) with ⟨r2, hr2, hmem, _⟩
    have hrr : r2 = r := Option.some.inj (hr2.symm.trans h)
    subst hrr
    rw [← hl] at hmem
    have hp := (List.mem_filter.1 hmem).2
    simp only [Bool.and_eq_true] at hp
    exact eq_of_beq hp.2

/-- Every recommendation produced by the per-mandi loop body when a user
location is given carries its market's coordinate-table entry and a rounded
distance that passed the `max_distance_km` test. -/
theorem bestRecFor_coord {hav : α → α → α → α → α} {db : List (MandiPrice α)}
    {commodity : String} {u : α × α} {maxDist : α} {nm : String}
    {r0 : Recommendation α}
    (h : bestRecFor hav db commodity (some u) maxDist nm = some r0) :
    ∃ c : ℚ × ℚ, lookupCoord r0.mandi_name = some c ∧
      r0.distance_km =
        some (round1 (hav u.1 u.2 ((c.1 : α)) ((c.2 : α)))) ∧
      round1 (hav u.1 u.2 ((c.1 : α)) ((c.2 : α))) ≤ maxDist := by
  rcases hlf : latestFor db commodity nm with _ | latest
  · simp only [bestRecFor, hlf] at h
    exact Option.noConfusion h
  · have hname : latest.mandi_name = nm := latestFor_name hlf
    rcases hco : lookupCoord nm with _ | c
    · simp only [bestRecFor, hlf, hco] at h
      exact Option.noConfusion h
    · simp only [bestRecFor, hlf, hco] at h
      by_cases hlt : maxDist <
          round1 (hav u.1 u.2 ((c.1 : α)) ((c.2 : α)))
      · rw [if_pos hlt] at h
        exact Option.noConfusion h
      · rw [if_neg hlt] at h
        have hre : mkRecommendation latest
            (some (round1 (hav u.1 u.2 ((c.1 : α)) ((c.2 : α)))))
            (round2 (round1 (hav u.1 u.2 ((c.1 : α)) ((c.2 : α))) *
              (5 / 2))) = r0 := Option.some.inj h
        subst hre
        refine ⟨c, ?_, rfl, not_lt.1 hlt⟩
        show lookupCoord latest.mandi_name = some c
        rw [hname]
        exact hco

/-- C4 (amended): when a user location is supplied, every market returned by
`find_best_apmc` has an entry in the coordinate table, its stored
`distance_km` is the 1-decimal rounding of the haversine distance to that
coordinate, that rounded distance is at most `max_distance_km`, and hence the
true distance is at most `max_distance_km + 0.05` (the rounding can hide an
excess of up to `0.05` km, so the original claim's bound on the true distance
holds only up to that slack). -/
theorem find_best_distance_exclusion_spec (hav : α → α → α → α → α)
    (db : List (MandiPrice α)) (commodity : String) (u : α × α)
    (maxDist : α) (state : Option String) (res : BestApmcResult α)
    (h : findBestApmc hav db commodity (some u) maxDist state = res) :
    ∀ r ∈ res.recommendations, ∃ c : ℚ × ℚ,
      lookupCoord r.mandi_name = some c ∧
      r.distance_km =
        some (round1 (hav u.1 u.2 ((c.1 : α)) ((c.2 : α)))) ∧
      round1 (hav u.1 u.2 ((c.1 : α)) ((c.2 : α))) ≤ maxDist ∧
      hav u.1 u.2 ((c.1 : α)) ((c.2 : α)) ≤ maxDist + 1 / 20 := by
  subst h
  have hrec : (findBestApmc hav db commodity (some u) maxDist
      state).recommendations =
      (sortDescBy (fun r : Recommendation α => r.net_price_per_quintal)
        ((dedupFirst ((db.filter (fun r =>
            matchesCommodity commodity r && matchesState state r)).map
          (·.mandi_name))).filterMap
          (bestRecFor hav db commodity (some u) maxDist))).enum.map
        (fun p => { p.2 with rank := p.1 + 1 }) := rfl
  intro r hr
  rw [hrec] at hr
  rcases mem_rankMap hr with ⟨r0, hr0, _, _, hdist, _, hname⟩
  have hr0m := (sortDescBy_perm _ _).mem_iff.1 hr0
  rcases List.mem_filterMap.1 hr0m with ⟨nm, _, hnm⟩
  rcases bestRecFor_coord hnm with ⟨c, hc, hd, hle⟩
  refine ⟨c, ?_, ?_, hle, ?_⟩
  · rw [hname]
    exact hc
  · rw [hdist]
    exact hd
  · calc hav u.1 u.2 ((c.1 : α)) ((c.2 : α))
        ≤ round1 (hav u.1 u.2 ((c.1 : α)) ((c.2 : α))) + 1 / 20 :=
          le_round1_add _
      _ ≤ maxDist + 1 / 20 := by linarith

/-- C4 witness: the amended statement applied to a one-market database with
a dummy distance function that always returns `0`. -/
theorem find_best_distance_exclusion_spec_witness :
    ∃ c : ℚ × ℚ,
      lookupCoord ((findBestApmc (fun _ _ _ _ => (0 : ℚ))
        [⟨"Wheat", "Azadpur Mandi", "Delhi", "Delhi", 2000, 0, 0, 0, 1⟩]
        "Wheat" (some (0, 0)) 1 none).recommendations.headI.mandi_name) =
        some c ∧
      (findBestApmc (fun _ _ _ _ => (0 : ℚ))
        [⟨"Wheat", "Azadpur Mandi", "Delhi", "Delhi", 2000, 0, 0, 0, 1⟩]
        "Wheat" (some (0, 0)) 1 none).recommendations.headI.distance_km =
        some (round1 (0 : ℚ)) ∧
      round1 (0 : ℚ) ≤ (1 : ℚ) ∧
      (0 : ℚ) ≤ (1 : ℚ) + 1 / 20 := by
  have hlat : latestFor
      [(⟨"Wheat", "Azadpur Mandi", "Delhi", "Delhi", 2000, 0, 0, 0, 1⟩ :
        MandiPrice ℚ)] "Wheat" "Azadpur Mandi" =
      some ⟨"Wheat", "Azadpur Mandi", "Delhi", "Delhi", 2000, 0, 0, 0, 1⟩ :=
    rfl
  have hco : lookupCoord "Azadpur Mandi" =
      some (287041/10000, 771788/10000) := rfl
  have h0 : round1 (0 : ℚ) = 0 := by
    norm_num [round1]
  have hbr : bestRecFor (fun _ _ _ _ => (0 : ℚ))
      [⟨"Wheat", "Azadpur Mandi", "Delhi", "Delhi", 2000, 0, 0, 0, 1⟩]
      "Wheat" (some ((0 : ℚ), (0 : ℚ))) 1 "Azadpur Mandi" =
      some (mkRecommendation
        ⟨"Wheat", "Azadpur Mandi", "Delhi", "Delhi", 2000, 0, 0, 0, 1⟩
        (some (round1 (0 : ℚ))) (round2 (round1 (0 : ℚ) * (5 / 2)))) := by
    simp only [bestRecFor, hlat, hco]
    rw [h0]
    rw [if_neg (by norm_num)]
  have h1 : (findBestApmc (fun _ _ _ _ => (0 : ℚ))
      [⟨"Wheat", "Azadpur Mandi", "Delhi", "Delhi", 2000, 0, 0, 0, 1⟩]
      "Wheat" (some (0, 0)) 1 none).recommendations =
      (sortDescBy (fun r : Recommendation ℚ => r.net_price_per_quintal)
        ((["Azadpur Mandi"]).filterMap (bestRecFor (fun _ _ _ _ => (0 : ℚ))
          [⟨"Wheat", "Azadpur Mandi", "Delhi", "Delhi", 2000, 0, 0, 0, 1⟩]
          "Wheat" (some (0, 0)) 1))).enum.map
        (fun p => { p.2 with rank := p.1 + 1 }) := rfl
  have hrec : (findBestApmc (fun _ _ _ _ => (0 : ℚ))
      [⟨"Wheat", "Azadpur Mandi", "Delhi", "Delhi", 2000, 0, 0, 0, 1⟩]
      "Wheat" (some (0, 0)) 1 none).recommendations =
      [{ mkRecommendation
          ⟨"Wheat", "Azadpur Mandi", "Delhi", "Delhi", 2000, 0, 0, 0, 1⟩
          (some (round1 (0 : ℚ))) (round2 (round1 (0 : ℚ) * (5 / 2))) with
        rank := 1 }] := by
    rw [h1]
    simp only [List.filterMap_cons, hbr, List.filterMap_nil]
    simp only [sortDescBy, insertDescBy]
    rfl
  have hmem : (findBestApmc (fun _ _ _ _ => (0 : ℚ))
      [⟨"Wheat", "Azadpur Mandi", "Delhi", "Delhi", 2000, 0, 0, 0, 1⟩]
      "Wheat" (some (0, 0)) 1 none).recommendations.headI ∈
      (findBestApmc (fun _ _ _ _ => (0 : ℚ))
      [⟨"Wheat", "Azadpur Mandi", "Delhi", "Delhi", 2000, 0, 0, 0, 1⟩]
      "Wheat" (some (0, 0)) 1 none).recommendations := by
    rw [hrec]
    exact List.mem_cons_self _ _
  exact find_best_distance_exclusion_spec (fun _ _ _ _ => (0 : ℚ))
    [⟨"Wheat", "Azadpur Mandi", "Delhi", "Delhi", 2000, 0, 0, 0, 1⟩]
    "Wheat" (0, 0) 1 none _ rfl _ hmem

/-- C4 counterexample: the distance test is applied to the 1-decimal-rounded
distance, so a market whose true haversine distance strictly exceeds
`max_distance_km` can still be returned.  Placing the user 90 degrees of
latitude due south of Azadpur Mandi on its meridian makes the true distance
`6371 * pi / 2 = 10007.54...` km, which rounds to `10007.5`; with
`max_distance_km = 10007.5` the market is returned although its true
distance exceeds the maximum. -/
theorem find_best_true_distance_counterexample :
    ((findBestApmc haversineDistance
        [⟨"Wheat", "Azadpur Mandi", "Delhi", "Delhi", 2000, 0, 0, 0, 1⟩]
        "Wheat" (some (-612959/10000, 771788/10000)) (100075/10 : ℝ)
        none).recommendations.map (·.mandi_name)) = ["Azadpur Mandi"] ∧
    (100075/10 : ℝ) < haversineDistance (-612959/10000) (771788/10000)
      ((287041/10000 : ℚ) : ℝ) ((771788/10000 : ℚ) : ℝ) := by
  have hd : haversineDistance (-612959/10000) (771788/10000)
      ((287041/10000 : ℚ) : ℝ) ((771788/10000 : ℚ) : ℝ) =
      6371 * (Real.pi / 2) := by
    simp only [haversineDistance]
    have h90 : ((287041/10000 : ℚ) : ℝ) - (-612959/10000) = 90 := by
      push_cast
      norm_num
    have h0 : ((771788/10000 : ℚ) : ℝ) - 771788/10000 = 0 := by
      push_cast
      norm_num
    rw [h90, h0]
    have e1 : (90 : ℝ) * Real.pi / 180 / 2 = Real.pi / 4 := by ring
    have e2 : (0 : ℝ) * Real.pi / 180 / 2 = 0 := by ring
    have hA : Real.sin ((90 : ℝ) * Real.pi / 180 / 2) ^ 2 +
        Real.cos ((-612959/10000) * Real.pi / 180) *
          Real.cos (((287041/10000 : ℚ) : ℝ) * Real.pi / 180) *
        Real.sin ((0 : ℝ) * Real.pi / 180 / 2) ^ 2 = 1 / 2 := by
      rw [e1, e2, Real.sin_zero, Real.sin_pi_div_four]
      rw [div_pow, Real.sq_sqrt (by norm_num : (0 : ℝ) ≤ 2)]
      norm_num
    rw [hA]
    have e4 : Real.sqrt (1 / 2) = Real.sqrt 2 / 2 := by
      rw [show (1 / 2 : ℝ) = (Real.sqrt 2 / 2) ^ 2 from by
        rw [div_pow, Real.sq_sqrt (by norm_num : (0 : ℝ) ≤ 2)]
        norm_num]
      exact Real.sqrt_sq (by positivity)
    rw [e4, ← Real.sin_pi_div_four,
      Real.arcsin_sin (by linarith [Real.pi_pos]) (by linarith [Real.pi_pos])]
    ring
  have hround : round1 (haversineDistance (-612959/10000) (771788/10000)
      ((287041/10000 : ℚ) : ℝ) ((771788/10000 : ℚ) : ℝ)) =
      (100075/10 : ℝ) := by
    rw [hd, round1]
    have hr : round ((6371 : ℝ) * (Real.pi / 2) * 10) = 100075 := by
      rw [round_eq]
      have h1 : (6371 : ℝ) * (Real.pi / 2) * 10 + 1 / 2 =
          31855 * Real.pi + 1 / 2 := by ring
      rw [h1, Int.floor_eq_iff]
      constructor
      · push_cast
        linarith [Real.pi_gt_3141592]
      · push_cast
        linarith [Real.pi_lt_3141593]
    rw [hr]
    norm_num
  constructor
  · have hlat : latestFor
        [(⟨"Wheat", "Azadpur Mandi", "Delhi", "Delhi", 2000, 0, 0, 0, 1⟩ :
          MandiPrice ℝ)] "Wheat" "Azadpur Mandi" =
        some ⟨"Wheat", "Azadpur Mandi", "Delhi", "Delhi", 2000, 0, 0, 0, 1⟩ :=
      rfl
    have hco : lookupCoord "Azadpur Mandi" =
        some (287041/10000, 771788/10000) := rfl
    have hbr : bestRecFor haversineDistance
        [⟨"Wheat", "Azadpur Mandi", "Delhi", "Delhi", 2000, 0, 0, 0, 1⟩]
        "Wheat" (some ((-612959/10000 : ℝ), (771788/10000 : ℝ)))
        (100075/10 : ℝ) "Azadpur Mandi" =
        some (mkRecommendation
          ⟨"Wheat", "Azadpur Mandi", "Delhi", "Delhi", 2000, 0, 0, 0, 1⟩
          (some (100075/10 : ℝ)) (round2 ((100075/10 : ℝ) * (5 / 2)))) := by
      simp only [bestRecFor, hlat, hco]
      rw [hround]
      rw [if_neg (lt_irrefl _)]
    have h1 : (findBestApmc haversineDistance
        [⟨"Wheat", "Azadpur Mandi", "Delhi", "Delhi", 2000, 0, 0, 0, 1⟩]
        "Wheat" (some (-612959/10000, 771788/10000)) (100075/10 : ℝ)
        none).recommendations =
        (sortDescBy (fun r : Recommendation ℝ => r.net_price_per_quintal)
          ((["Azadpur Mandi"]).filterMap (bestRecFor haversineDistance
            [⟨"Wheat", "Azadpur Mandi", "Delhi", "Delhi", 2000, 0, 0, 0, 1⟩]
            "Wheat" (some (-612959/10000, 771788/10000))
            (100075/10 : ℝ)))).enum.map
          (fun p => { p.2 with rank := p.1 + 1 }) := rfl
    rw [h1]
    simp only [List.filterMap_cons, hbr, List.filterMap_nil]
    simp only [sortDescBy, insertDescBy]
    rfl
  · rw [hd]
    linarith [Real.pi_gt_3141592]

end KrishiNiti
